import Mathlib

/-!
Verification of the ice-maker ingestion-to-promotion pipeline.

This file gives a shallow embedding of the pure cores of the pipeline
modules (`pipeline/fingerprint.py`, `pipeline/matcher.py`,
`pipeline/promoter.py`, `pipeline/geocoder.py`, `pipeline/runner.py`,
`pipeline/demoter.py`, `utils/common.py`) and proves or refutes the
frozen specification claims about them.

Python strings are modelled over their character lists with ASCII
case-mapping; Python `None` is modelled as `Option.none`; Python floats
are modelled as rationals; database tables are modelled as lists of
rows in insertion order; external services (the usaddress tagger, the
mojibake round-trip, the difflib similarity ratio, the haversine
distance) are parameters of the embedded functions.
-/

namespace IceMaker

/-- Python whitespace characters relevant to `str.strip` / `str.split`
(ASCII model). -/
def pyIsSpace (c : Char) : Bool :=
  c = ' ' || c = '\t' || c = '\n' || c = '\r' || c = '\x0b' || c = '\x0c'

/-- ASCII lowercase of one character, as Python `str.lower` acts on ASCII. -/
def asciiLowerChar (c : Char) : Char :=
  if 'A' ≤ c ∧ c ≤ 'Z' then Char.ofNat (c.toNat + 32) else c

/-- ASCII uppercase of one character, as Python `str.upper` acts on ASCII. -/
def asciiUpperChar (c : Char) : Char :=
  if 'a' ≤ c ∧ c ≤ 'z' then Char.ofNat (c.toNat - 32) else c

/-- Python `str.lower` (ASCII model). -/
def pyLower (s : String) : String :=
  String.mk (s.data.map asciiLowerChar)

/-- Python `str.upper` (ASCII model). -/
def pyUpper (s : String) : String :=
  String.mk (s.data.map asciiUpperChar)

/-- Python `str.strip()`: drop leading and trailing whitespace. -/
def pyStrip (s : String) : String :=
  String.mk (((s.data.dropWhile pyIsSpace).reverse.dropWhile pyIsSpace).reverse)

/-- ASCII letter test. -/
def isAsciiAlpha (c : Char) : Bool :=
  ('a' ≤ c ∧ c ≤ 'z') || ('A' ≤ c ∧ c ≤ 'Z')

/-- ASCII uppercase letter test. -/
def isAsciiUpper (c : Char) : Bool :=
  'A' ≤ c ∧ c ≤ 'Z'

/-- ASCII digit test. -/
def isAsciiDigit (c : Char) : Bool :=
  '0' ≤ c ∧ c ≤ '9'

/-- One step of Python `str.title`: a cased character following a
non-alphabetic character is uppercased, one following an alphabetic
character is lowercased. -/
def titleStep (prevAlpha : Bool) (c : Char) : Bool × Char :=
  (isAsciiAlpha c, if isAsciiAlpha c then (if prevAlpha then asciiLowerChar c else asciiUpperChar c) else c)

/-- Helper for `pyTitle`, threading the previous-character state. -/
def titleGo : Bool → List Char → List Char
  | _, [] => []
  | prevAlpha, c :: cs =>
      let r := titleStep prevAlpha c
      r.2 :: titleGo r.1 cs

/-- Python `str.title` (ASCII model). -/
def pyTitle (s : String) : String :=
  String.mk (titleGo false s.data)

/-- Helper for `pySplit`: split a character list on whitespace runs. -/
def splitGo : List Char → List Char → List String
  | acc, [] => if acc.isEmpty then [] else [String.mk acc.reverse]
  | acc, c :: cs =>
      if pyIsSpace c then
        if acc.isEmpty then splitGo [] cs
        else String.mk acc.reverse :: splitGo [] cs
      else splitGo (c :: acc) cs

/-- Python `str.split()` with no argument: split on whitespace runs,
discarding empty fields. -/
def pySplit (s : String) : List String :=
  splitGo [] s.data

/-- Python `" ".join`. -/
def joinSpace : List String → String
  | [] => ""
  | [w] => w
  | w :: ws => w ++ " " ++ joinSpace ws

/-- Python `str.split(sep)` for a single-character separator: keeps
empty fields and always returns at least one field. -/
def splitOnCharGo (sep : Char) : List Char → List (List Char)
  | [] => [[]]
  | c :: cs =>
      if c = sep then [] :: splitOnCharGo sep cs
      else
        match splitOnCharGo sep cs with
        | w :: ws => (c :: w) :: ws
        | [] => [[c]]

/-- Python `str.split(sep)` on strings. -/
def pySplitOn (s : String) (sep : Char) : List String :=
  (splitOnCharGo sep s.data).map String.mk

/-- Python slicing `s[:n]`. -/
def pyTake (s : String) (n : Nat) : String :=
  String.mk (s.data.take n)

/-- Python `str.startswith`. -/
def pyStartswith (s pre : String) : Bool :=
  pre.data.isPrefixOf s.data

/-- Helper for `collapseWs`, tracking whether the previous character
was whitespace. -/
def collapseWsGo (prevSpace : Bool) : List Char → List Char
  | [] => []
  | c :: cs =>
      if pyIsSpace c then
        if prevSpace then collapseWsGo true cs
        else ' ' :: collapseWsGo true cs
      else c :: collapseWsGo false cs

/-- Collapse each whitespace run to a single space, as
`re.sub(r'\s+', ' ', text)`. -/
def collapseWs (l : List Char) : List Char :=
  collapseWsGo false l

end IceMaker

namespace IceMaker

/-- A row of the `candidates` staging table (`pipeline/staging.py`),
with nullable columns as `Option` and floats as rationals. -/
structure Candidate where
  id : Nat
  raw_entry_id : Nat
  name : String
  street : Option String
  city : Option String
  state : Option String
  zip : Option String
  country : Option String
  geo_lat : Option Rat
  geo_lon : Option Rat
  geo_confidence : Option Rat
  geo_matched_name : Option String
  verification_status : String
  location_id : Option String
deriving Repr, DecidableEq

/-- A row of the `locations` table (`pipeline/staging.py`). -/
structure LocationRow where
  rink_id : String
  rink_name : String
  rink_address : Option String
  rink_city : String
  rink_state : String
  rink_country : String
  rink_zip : String
  rink_status : String
  data_source : String
deriving Repr, DecidableEq

end IceMaker

namespace IceMaker.Utils

/-- `utils/common.py` `country_us.us_state_to_abbrev`: full state names
to 2-letter codes, also accepting already-abbreviated codes.  Lookup
order is irrelevant for a Python dict; the association list preserves
the source order. -/
def us_state_to_abbrev : List (String × String) :=
  [("Alabama", "AL"), ("Alaska", "AK"), ("Arizona", "AZ"),
   ("Arkansas", "AR"), ("California", "CA"), ("Colorado", "CO"),
   ("Connecticut", "CT"), ("Delaware", "DE"), ("Florida", "FL"),
   ("Georgia", "GA"), ("Hawaii", "HI"), ("Idaho", "ID"),
   ("Illinois", "IL"), ("Indiana", "IN"), ("Iowa", "IA"),
   ("Kansas", "KS"), ("Kentucky", "KY"), ("Louisiana", "LA"),
   ("Maine", "ME"), ("Maryland", "MD"), ("Massachusetts", "MA"),
   ("Michigan", "MI"), ("Minnesota", "MN"), ("Mississippi", "MS"),
   ("Missouri", "MO"), ("Montana", "MT"), ("Nebraska", "NE"),
   ("Nevada", "NV"), ("New Hampshire", "NH"), ("New Jersey", "NJ"),
   ("New Mexico", "NM"), ("New York", "NY"), ("North Carolina", "NC"),
   ("North Dakota", "ND"), ("Ohio", "OH"), ("Oklahoma", "OK"),
   ("Oregon", "OR"), ("Pennsylvania", "PA"), ("Rhode Island", "RI"),
   ("South Carolina", "SC"), ("South Dakota", "SD"), ("Tennessee", "TN"),
   ("Texas", "TX"), ("Utah", "UT"), ("Vermont", "VT"),
   ("Virginia", "VA"), ("Washington", "WA"), ("West Virginia", "WV"),
   ("Wisconsin", "WI"), ("Wyoming", "WY"),
   ("District of Columbia", "DC"), ("American Samoa", "AS"),
   ("Guam", "GU"), ("Northern Mariana Islands", "MP"),
   ("Puerto Rico", "PR"),
   ("United States Minor Outlying Islands", "UM"),
   ("U.S. Virgin Islands", "VI"),
   ("AL", "AL"), ("AK", "AK"), ("AZ", "AZ"), ("AR", "AR"), ("CA", "CA"),
   ("CO", "CO"), ("CT", "CT"), ("DE", "DE"), ("FL", "FL"), ("GA", "GA"),
   ("HI", "HI"), ("ID", "ID"), ("IL", "IL"), ("IN", "IN"), ("IA", "IA"),
   ("KS", "KS"), ("KY", "KY"), ("LA", "LA"), ("ME", "ME"), ("MD", "MD"),
   ("MA", "MA"), ("MI", "MI"), ("MN", "MN"), ("MS", "MS"), ("MO", "MO"),
   ("MT", "MT"), ("NE", "NE"), ("NV", "NV"), ("NH", "NH"), ("NJ", "NJ"),
   ("NM", "NM"), ("NY", "NY"), ("NC", "NC"), ("ND", "ND"), ("OH", "OH"),
   ("OK", "OK"), ("OR", "OR"), ("PA", "PA"), ("RI", "RI"), ("SC", "SC"),
   ("SD", "SD"), ("TN", "TN"), ("TX", "TX"), ("UT", "UT"), ("VT", "VT"),
   ("VA", "VA"), ("WA", "WA"), ("WV", "WV"), ("WI", "WI"), ("WY", "WY"),
   ("DC", "DC"), ("AS", "AS"), ("GU", "GU"), ("MP", "MP"), ("PR", "PR"),
   ("UM", "UM"), ("VI", "VI")]

/-- `utils/common.py` `country_us.st_abbr`: street-abbreviation
expansion table. -/
def st_abbr : List (String × String) :=
  [("APT", "APARTMENT"), ("APTS", "APARTMENTS"), ("AVE", "AVENUE"),
   ("BLVD", "BOULEVARD"), ("BR", "BRIDGE"), ("CIR", "CIRCLE"),
   ("CT", "COURT"), ("DR", "DRIVE"), ("HWY", "HIGHWAY"),
   ("HW", "HIGHWAY"), ("LK", "LAKE"), ("LN", "LANE"), ("RD", "ROAD"),
   ("MT", "MOUNT"), ("MTN", "MOUNTAIN"), ("PKWY", "PARKWAY"),
   ("PL", "PLACE"), ("RTE", "ROUTE"), ("SQ", "SQUARE"),
   ("ST", "STREET"), ("STE", "SUITE"), ("TPKE", "TURNPIKE"),
   ("TR", "TRAIL")]

/-- Python `dict.get(k)` over an association list. -/
def tableGet (tbl : List (String × String)) (k : String) : Option String :=
  (tbl.find? (fun kv => kv.1 == k)).map (fun kv => kv.2)

/-- Python `dict.get(k, default)` over an association list. -/
def tableGetD (tbl : List (String × String)) (k default : String) : String :=
  (tableGet tbl k).getD default

/-- `utils/common.py` `country_us._lookup_words`: uppercase, split on
whitespace, expand each word through `st_abbr`, re-join with single
spaces. -/
def _lookup_words (input_text : String) : String :=
  joinSpace ((pySplit (pyUpper input_text)).map (fun w =>
    match tableGet st_abbr (pyUpper w) with
    | some v => v
    | none => w))

/-- `utils/common.py` `country_us._remove_punctuation`: drop every
character outside `[\w\s]` (ASCII model: word characters and
whitespace survive). -/
def _remove_punctuation (input_text : String) : String :=
  String.mk (input_text.data.filter (fun c =>
    c.isAlphanum || c = '_' || pyIsSpace c))

/-- `utils/common.py` `reset_utf8`: repair mojibake by an
ISO-8859-1-encode / UTF-8-decode round trip, passing the input through
when the round trip raises.  The round trip itself is external; it is
the `fix` parameter, `none` modelling a raised exception. -/
def reset_utf8 (fix : String → Option String) (s : String) : String :=
  match fix s with
  | some t => t
  | none => s

/-- Substring replacement scan for `_expand_rec_ctrs`: each
case-insensitive occurrence of `rec ctr` becomes `Recreation Center`.
A tail shorter than seven characters cannot contain the pattern and is
emitted unchanged. -/
def expandRecCtrGo : List Char → List Char
  | c1 :: c2 :: c3 :: c4 :: c5 :: c6 :: c7 :: rest =>
      if [c1, c2, c3, c4, c5, c6, c7].map asciiLowerChar = "rec ctr".data then
        "Recreation Center".data ++ expandRecCtrGo rest
      else c1 :: expandRecCtrGo (c2 :: c3 :: c4 :: c5 :: c6 :: c7 :: rest)
  | l => l

/-- Modelled from the spec: `country_us._expand_rec_ctrs` is called by
`pipeline/runner.py` and the formatters but is missing from
`utils/common.py`; per §4.2 step 1 and its unit tests it expands the
pattern `Rec Ctr` case-insensitively to `Recreation Center` and
title-cases the result, passing empty input through unchanged. -/
def _expand_rec_ctrs (s : String) : String :=
  if s = "" then "" else pyTitle (String.mk (expandRecCtrGo s.data))

end IceMaker.Utils

namespace IceMaker.Matcher

/-- `pipeline/matcher.py` `_normalize_for_dedup`: lowercase, strip,
remove characters outside `[a-z0-9 ]`, collapse whitespace, strip.
`None` input (modelled as `Option.none`) and the empty string both
return the empty string, matching the Python falsiness test. -/
def _normalize_for_dedup (text : Option String) : String :=
  match text with
  | none => ""
  | some t =>
      if t = "" then ""
      else
        let t1 := pyStrip (pyLower t)
        let t2 := String.mk (t1.data.filter (fun c =>
          ('a' ≤ c ∧ c ≤ 'z') || isAsciiDigit c || c = ' '))
        pyStrip (String.mk (collapseWs t2.data))

/-- The verified-pool statuses of `find_duplicate`. -/
def verifiedStatuses : List String :=
  ["geocode_match", "human_approved", "source_verified"]

/-- `pipeline/matcher.py` `find_duplicate`: the three-layer dedup check
against existing candidates, returning the first match and its layer
label.  The difflib `SequenceMatcher.ratio` metric and the float
haversine distance are external; they are the `ratio` and `hav`
parameters (`hav lat1 lon1 lat2 lon2` in miles). -/
def find_duplicate (ratio : String → String → Rat)
    (hav : Rat → Rat → Rat → Rat → Rat)
    (others : List Candidate) (candidate : Candidate) :
    Option (Candidate × String) :=
  let norm_street := _normalize_for_dedup candidate.street
  let norm_city := _normalize_for_dedup candidate.city
  let norm_state := _normalize_for_dedup candidate.state
  let norm_name := _normalize_for_dedup (some candidate.name)
  let existing := others.filter (fun o =>
    o.id != candidate.id && verifiedStatuses.contains o.verification_status)
  match existing.find? (fun o =>
      let other_street := _normalize_for_dedup o.street
      norm_street != "" && other_street != "" &&
        norm_street == other_street &&
        norm_city == _normalize_for_dedup o.city &&
        norm_state == _normalize_for_dedup o.state) with
  | some o => some (o, "address_exact")
  | none =>
      let candidate_has_street := norm_street ≠ ""
      let layer2_pool :=
        if candidate_has_street then existing
        else others.filter (fun o =>
          o.id != candidate.id &&
            (verifiedStatuses ++ ["unverified"]).contains o.verification_status)
      match layer2_pool.find? (fun o =>
          let other_city := _normalize_for_dedup o.city
          let other_state := _normalize_for_dedup o.state
          if norm_city != other_city || norm_state != other_state then false
          else
            let other_has_street := _normalize_for_dedup o.street ≠ ""
            let no_street := ¬candidate_has_street ∨ ¬other_has_street
            let threshold : Rat := if no_street then 3 / 5 else 4 / 5
            decide (threshold ≤ ratio norm_name (_normalize_for_dedup (some o.name)))) with
      | some o => some (o, "fuzzy_name")
      | none =>
          match candidate.geo_lat, candidate.geo_lon with
          | some lat, some lon =>
              (existing.find? (fun o =>
                match o.geo_lat, o.geo_lon with
                | some olat, some olon =>
                    decide (hav lat lon olat olon ≤ 1 / 2)
                | _, _ => false)).map (fun o => (o, "geo_proximity"))
          | _, _ => none

end IceMaker.Matcher

namespace IceMaker.Promoter

/-- `pipeline/promoter.py` `_normalize`: lowercase, strip punctuation,
collapse whitespace, exactly as written there. -/
def _normalize (text : Option String) : String :=
  match text with
  | none => ""
  | some t =>
      if t = "" then ""
      else
        let t1 := pyStrip (pyLower t)
        let t2 := String.mk (t1.data.filter (fun c =>
          ('a' ≤ c ∧ c ≤ 'z') || isAsciiDigit c || c = ' '))
        pyStrip (String.mk (collapseWs t2.data))

/-- `pipeline/promoter.py` `_find_matching_location`: the two-layer
match against the locations table (exact normalized address, then fuzzy
name within the same city and state), filtering out only the `merged`
and `disabled` statuses.  The difflib ratio is the `ratio` parameter. -/
def _find_matching_location (ratio : String → String → Rat)
    (locations : List IceMaker.LocationRow)
    (name street city state : Option String) :
    Option IceMaker.LocationRow :=
  let norm_street := _normalize street
  let norm_city := _normalize city
  let norm_state := _normalize state
  let norm_name := _normalize name
  let locs := locations.filter (fun l =>
    !(["merged", "disabled"].contains l.rink_status))
  match locs.find? (fun l =>
      let loc_street := _normalize l.rink_address
      norm_street != "" && loc_street != "" &&
        norm_street == loc_street &&
        norm_city == _normalize (some l.rink_city) &&
        norm_state == _normalize (some l.rink_state)) with
  | some l => some l
  | none =>
      locs.find? (fun l =>
        let loc_city := _normalize (some l.rink_city)
        let loc_state := _normalize (some l.rink_state)
        if norm_city != loc_city || norm_state != loc_state then false
        else
          let loc_has_street := _normalize l.rink_address ≠ ""
          let no_street := norm_street = "" ∨ ¬loc_has_street
          let threshold : Rat := if no_street then 3 / 5 else 4 / 5
          decide (threshold ≤ ratio norm_name (_normalize (some l.rink_name))))

end IceMaker.Promoter

namespace IceMaker.Geocoder

/-- The structured `address` detail map of a Nominatim hit, with absent
components as the empty string (the `.get(..., '')` defaults used in
`_score_address`) and the postcode as in `geocode`. -/
structure GeoDetail where
  road : String
  city : String
  town : String
  village : String
  state : String
  iso : String
  postcode : Option String
deriving Repr, DecidableEq

/-- The dict returned by `geocode` on success. -/
structure GeoResult where
  lat : Rat
  lon : Rat
  display_name : String
  postcode : Option String
  address_detail : GeoDetail
deriving Repr, DecidableEq

/-- The state entry that `_score_address` appends to `scores` for a
truthy candidate state: `1.0`/`0.0` against the ISO-3166-2 code suffix
when present, otherwise the equality / two-letter-prefix test against
the result state name with the similarity ratio as fallback, otherwise
nothing. -/
def stateSubScore (ratio : String → String → Rat) (candidate_state : String)
    (d : GeoDetail) : Option Rat :=
  if candidate_state ≠ "" then
    let st := pyUpper (pyStrip candidate_state)
    if d.iso ≠ "" then
      let geo_abbrev := pyUpper ((pySplitOn d.iso '-').getLastD "")
      some (if st = geo_abbrev then 1 else 0)
    else if d.state ≠ "" then
      let geo_st := pyUpper (pyStrip d.state)
      some (if st = geo_st ∨ pyStartswith st (pyTake geo_st 2) = true then 1
            else ratio st geo_st)
    else none
  else none

/-- `pipeline/geocoder.py` `_score_address`: the mean of the present
sub-scores (street vs road, city vs city/town/village, state vs
subdivision), `0.0` when none is present.  `difflib`
`SequenceMatcher.ratio` is external; it is the `ratio` parameter. -/
def _score_address (ratio : String → String → Rat)
    (candidate_street candidate_city candidate_state : Option String)
    (d : GeoDetail) : Rat :=
  let geo_road := d.road
  let geo_city := if d.city ≠ "" then d.city
    else if d.town ≠ "" then d.town else d.village
  let s1 : List Rat :=
    match candidate_street with
    | some str =>
        if str ≠ "" ∧ geo_road ≠ "" then [ratio (pyLower str) (pyLower geo_road)]
        else []
    | none => []
  let s2 : List Rat :=
    match candidate_city with
    | some ct =>
        if ct ≠ "" ∧ geo_city ≠ "" then [ratio (pyLower ct) (pyLower geo_city)]
        else []
    | none => []
  let s3 : List Rat :=
    match candidate_state with
    | some stt =>
        match stateSubScore ratio stt d with
        | some v => [v]
        | none => []
    | none => []
  let scores := s1 ++ s2 ++ s3
  if scores = [] then 0 else scores.sum / scores.length

/-- `pipeline/geocoder.py` `geocode_candidate`: apply a geocode result
(`none` models every failure collapsed to `null`) to a candidate and
return the updated candidate with the verification status string. -/
def geocode_candidate (ratio : String → String → Rat)
    (result : Option GeoResult) (c : Candidate) : Candidate × String :=
  match result with
  | none => ({ c with verification_status := "geocode_failed" }, "geocode_failed")
  | some r =>
      let c1 := { c with
        geo_lat := some r.lat
        geo_lon := some r.lon
        geo_matched_name := some r.display_name }
      let c2 :=
        match r.postcode with
        | some p => if p ≠ "" then { c1 with zip := some p } else c1
        | none => c1
      let confidence := _score_address ratio c.street c.city c.state r.address_detail
      let c3 := { c2 with geo_confidence := some confidence }
      if (7 : Rat) / 10 ≤ confidence then
        ({ c3 with verification_status := "geocode_match" }, "geocode_match")
      else
        ({ c3 with verification_status := "geocode_mismatch" }, "geocode_mismatch")

end IceMaker.Geocoder

namespace IceMaker.Runner

/-- A row of the `raw_entries` table, as consumed by the parsers. -/
structure RawEntry where
  id : Nat
  source_id : Nat
  raw_name : String
  raw_address : String
deriving Repr, DecidableEq

/-- The component map returned by `usaddress.tag`, with absent labels
as the empty string (the `.get(..., '')` defaults in `_parse_entry`). -/
structure TagParts where
  addressNumber : String
  streetNamePreDirectional : String
  streetName : String
  streetNamePostType : String
  streetNamePostDirectional : String
  occupancyIdentifier : String
  placeName : String
  stateName : String
deriving Repr, DecidableEq

/-- The dict returned by `_parse_entry` / `_parse_wiki_entry` on
success. -/
structure ParsedEntry where
  name : String
  street : Option String
  city : String
  state : String
deriving Repr, DecidableEq

/-- The pre-extracted wiki fields consumed by `_parse_wiki_entry`. -/
structure WikiExtra where
  city : Option String
  state : Option String
deriving Repr, DecidableEq

/-- `pipeline/runner.py` `_parse_entry`: name cleanup (mojibake repair,
`Rec Ctr` expansion), usaddress tagging, street assembly with
punctuation removal and abbreviation expansion, city and state mapping;
an error string is returned when the tagger raises or when the name or
assembled street is empty.  The usaddress tagger is external; it is the
`tag` parameter, `Except.error` modelling a raised exception with its
message, and `fix` is the mojibake round trip as in `reset_utf8`. -/
def _parse_entry (fix : String → Option String)
    (tag : String → Except String TagParts) (raw : RawEntry) :
    Except String ParsedEntry :=
  let name := Utils._expand_rec_ctrs (Utils.reset_utf8 fix raw.raw_name)
  match tag raw.raw_address with
  | Except.error e => Except.error e
  | Except.ok parts =>
      let street_parts := [parts.addressNumber, parts.streetNamePreDirectional,
        parts.streetName, parts.streetNamePostType,
        parts.streetNamePostDirectional, parts.occupancyIdentifier]
      let assembled := pyStrip (joinSpace (street_parts.filter (fun p => p ≠ "")))
      let street : Option String :=
        if assembled ≠ "" then
          some (Utils._lookup_words (Utils._remove_punctuation assembled))
        else none
      let city0 := parts.placeName
      let city := if city0 ≠ "" then Utils._remove_punctuation city0 else city0
      let state0 := parts.stateName
      let state :=
        if state0 ≠ "" then Utils.tableGetD Utils.us_state_to_abbrev state0 state0
        else state0
      match street with
      | none =>
          Except.error ("Missing required fields: name=" ++ name ++ ", street=None")
      | some st =>
          if name = "" ∨ st = "" then
            Except.error ("Missing required fields: name=" ++ name ++ ", street=" ++ st)
          else
            Except.ok
              { name := pyTitle (pyStrip name)
                street := some (pyUpper st)
                city := if city ≠ "" then pyTitle (pyStrip city) else city
                state := if state ≠ "" then pyUpper (pyStrip state) else state }

/-- `pipeline/runner.py` `_parse_wiki_entry`: wiki entries have no
street; city and state come pre-extracted, full state names are mapped
to 2-letter codes, and name plus at least one of city/state are
required. -/
def _parse_wiki_entry (fix : String → Option String) (raw : RawEntry)
    (extra : WikiExtra) : Except String ParsedEntry :=
  let name := Utils.reset_utf8 fix raw.raw_name
  if name = "" then Except.error "Missing rink name"
  else
    let city := pyStrip (extra.city.getD "")
    let state_full := pyStrip (extra.state.getD "")
    let state := Utils.tableGetD Utils.us_state_to_abbrev state_full state_full
    if city = "" ∧ state = "" then
      Except.error ("Missing city and state for " ++ name)
    else
      Except.ok
        { name := pyTitle (pyStrip name)
          street := none
          city := pyTitle city
          state := pyUpper state }

/-- One iteration of the `repair_geocode_failed` loop on a single
candidate: only `geocode_failed` candidates whose raw entry exists and
re-parses to a street that differs from the current one are reset to
`unverified` with geo fields and zip cleared. -/
def repair_one (fix : String → Option String)
    (tag : String → Except String TagParts) (raws : List RawEntry)
    (c : Candidate) : Candidate :=
  if c.verification_status = "geocode_failed" then
    match raws.find? (fun r => r.id == c.raw_entry_id) with
    | none => c
    | some raw =>
        match _parse_entry fix tag raw with
        | Except.error _ => c
        | Except.ok p =>
            match p.street with
            | none => c
            | some ns =>
                if ns ≠ "" ∧ some ns ≠ c.street then
                  { c with
                    street := some ns
                    city := some p.city
                    state := some p.state
                    verification_status := "unverified"
                    geo_lat := none
                    geo_lon := none
                    geo_confidence := none
                    geo_matched_name := none
                    zip := none }
                else c
  else c

/-- `pipeline/runner.py` `repair_geocode_failed` on the candidates
table: the session iterates the `geocode_failed` rows and mutates them
in place, which on the list model is a map of `repair_one`. -/
def repair_geocode_failed (fix : String → Option String)
    (tag : String → Except String TagParts) (raws : List RawEntry)
    (cands : List Candidate) : List Candidate :=
  cands.map (repair_one fix tag raws)

end IceMaker.Runner

namespace IceMaker.Demoter

/-- A row of the `location_sources` junction table
(`pipeline/staging.py`), with timestamps as naturals. -/
structure LocSourceRow where
  id : Nat
  location_id : String
  source_id : Nat
  candidate_id : Option Nat
  first_seen_at : Option Nat
  last_seen_at : Option Nat
  is_present : Bool
deriving Repr, DecidableEq

/-- A row of the `location_aliases` table (`pipeline/staging.py`). -/
structure AliasRow where
  location_id : String
  alias_name : String
  effective_until : Option Nat
  notes : String
deriving Repr, DecidableEq

/-- The database state touched by `merge_locations`. -/
structure MergeDB where
  locations : List IceMaker.LocationRow
  location_sources : List LocSourceRow
  candidates : List IceMaker.Candidate
  aliases : List AliasRow
deriving Repr, DecidableEq

/-- The `first_seen_at` update of `merge_locations`: take the moved
link value when it is non-null and earlier than (or replacing a null)
target value. -/
def widen_first (tgt link : Option Nat) : Option Nat :=
  match link, tgt with
  | some l, none => some l
  | some l, some t => if l < t then some l else some t
  | none, t => t

/-- The `last_seen_at` update of `merge_locations`: take the moved link
value when it is non-null and later than (or replacing a null) target
value. -/
def widen_last (tgt link : Option Nat) : Option Nat :=
  match link, tgt with
  | some l, none => some l
  | some l, some t => if t < l then some l else some t
  | none, t => t

/-- One iteration of the `merge_locations` source-link loop: if the
target location already has a row for the moved link's source, widen
that row's window and delete the moved row, otherwise re-point the
moved row to the target. -/
def mergeLinkStep (into_id : String) (tbl : List LocSourceRow)
    (link : LocSourceRow) : List LocSourceRow :=
  match tbl.find? (fun r =>
      r.location_id == into_id && r.source_id == link.source_id) with
  | some tgt =>
      (tbl.map (fun r =>
        if r.id = tgt.id then
          { r with
            first_seen_at := widen_first r.first_seen_at link.first_seen_at
            last_seen_at := widen_last r.last_seen_at link.last_seen_at }
        else r)).filter (fun r => r.id != link.id)
  | none =>
      tbl.map (fun r =>
        if r.id = link.id then { r with location_id := into_id } else r)

/-- `pipeline/demoter.py` `merge_locations` on the modelled database
state: self-merge and missing locations are errors; otherwise move each
LocationSource of the source location, add an alias when the names
differ, re-point candidates, and mark the source location `merged`.
`now` models `datetime.now(timezone.utc)`. -/
def merge_locations (from_id into_id : String) (now : Nat) (db : MergeDB) :
    Except String MergeDB :=
  if from_id = into_id then Except.error "Cannot merge a location into itself"
  else
    match db.locations.find? (fun l => l.rink_id == from_id) with
    | none => Except.error ("Source location not found: " ++ from_id)
    | some source_loc =>
        match db.locations.find? (fun l => l.rink_id == into_id) with
        | none => Except.error ("Target location not found: " ++ into_id)
        | some target_loc =>
            let source_links :=
              db.location_sources.filter (fun r => r.location_id == from_id)
            let table := source_links.foldl (mergeLinkStep into_id)
              db.location_sources
            let aliases :=
              if source_loc.rink_name ≠ target_loc.rink_name then
                db.aliases ++
                  [{ location_id := into_id
                     alias_name := source_loc.rink_name
                     effective_until := some now
                     notes := "Merged from " ++ from_id }]
              else db.aliases
            let candidates := db.candidates.map (fun c =>
              if c.location_id = some from_id then
                { c with location_id := some into_id }
              else c)
            let locations := db.locations.map (fun l =>
              if l.rink_id = from_id then { l with rink_status := "merged" }
              else l)
            Except.ok
              { locations := locations
                location_sources := table
                candidates := candidates
                aliases := aliases }

/-- The minimum of two nullable timestamps over their non-null values
(the conservative union of §8, first-seen side). -/
def minSeen : Option Nat → Option Nat → Option Nat
  | none, b => b
  | some a, none => some a
  | some a, some b => some (min a b)

/-- The maximum of two nullable timestamps over their non-null values
(the conservative union of §8, last-seen side). -/
def maxSeen : Option Nat → Option Nat → Option Nat
  | none, b => b
  | some a, none => some a
  | some a, some b => some (max a b)

end IceMaker.Demoter

namespace IceMaker.MD5

/-- Modelled from the spec: `hashlib.md5` is the Python standard
library; §4.1 specifies the fingerprint hash as MD5 with lowercase hex
output, so MD5 (RFC 1321) is implemented here over byte lists, with
32-bit words as naturals reduced mod `2^32`. -/
def mask32 : Nat := 4294967295

/-- 32-bit modular addition. -/
def add32 (a b : Nat) : Nat := (a + b) % 4294967296

/-- 32-bit left rotation. -/
def rotl32 (x n : Nat) : Nat := ((x <<< n) ||| (x >>> (32 - n))) &&& mask32

/-- 32-bit bitwise complement. -/
def not32 (x : Nat) : Nat := mask32 ^^^ x

/-- MD5 round function F. -/
def mdF (b c d : Nat) : Nat := (b &&& c) ||| (not32 b &&& d)

/-- MD5 round function G. -/
def mdG (b c d : Nat) : Nat := (b &&& d) ||| (c &&& not32 d)

/-- MD5 round function H. -/
def mdH (b c d : Nat) : Nat := b ^^^ c ^^^ d

/-- MD5 round function I. -/
def mdI (b c d : Nat) : Nat := c ^^^ (b ||| not32 d)

/-- MD5 sine-derived constant table `K`. -/
def kTable : List Nat :=
  [0xd76aa478, 0xe8c7b756, 0x242070db, 0xc1bdceee,
   0xf57c0faf, 0x4787c62a, 0xa8304613, 0xfd469501,
   0x698098d8, 0x8b44f7af, 0xffff5bb1, 0x895cd7be,
   0x6b901122, 0xfd987193, 0xa679438e, 0x49b40821,
   0xf61e2562, 0xc040b340, 0x265e5a51, 0xe9b6c7aa,
   0xd62f105d, 0x02441453, 0xd8a1e681, 0xe7d3fbc8,
   0x21e1cde6, 0xc33707d6, 0xf4d50d87, 0x455a14ed,
   0xa9e3e905, 0xfcefa3f8, 0x676f02d9, 0x8d2a4c8a,
   0xfffa3942, 0x8771f681, 0x6d9d6122, 0xfde5380c,
   0xa4beea44, 0x4bdecfa9, 0xf6bb4b60, 0xbebfbc70,
   0x289b7ec6, 0xeaa127fa, 0xd4ef3085, 0x04881d05,
   0xd9d4d039, 0xe6db99e5, 0x1fa27cf8, 0xc4ac5665,
   0xf4292244, 0x432aff97, 0xab9423a7, 0xfc93a039,
   0x655b59c3, 0x8f0ccc92, 0xffeff47d, 0x85845dd1,
   0x6fa87e4f, 0xfe2ce6e0, 0xa3014314, 0x4e0811a1,
   0xf7537e82, 0xbd3af235, 0x2ad7d2bb, 0xeb86d391]

/-- MD5 per-round left-rotation amounts. -/
def sTable : List Nat :=
  [7, 12, 17, 22, 7, 12, 17, 22, 7, 12, 17, 22, 7, 12, 17, 22,
   5, 9, 14, 20, 5, 9, 14, 20, 5, 9, 14, 20, 5, 9, 14, 20,
   4, 11, 16, 23, 4, 11, 16, 23, 4, 11, 16, 23, 4, 11, 16, 23,
   6, 10, 15, 21, 6, 10, 15, 21, 6, 10, 15, 21, 6, 10, 15, 21]

/-- Message-word schedule index for round `i`. -/
def gIndex (i : Nat) : Nat :=
  if i < 16 then i
  else if i < 32 then (5 * i + 1) % 16
  else if i < 48 then (3 * i + 5) % 16
  else (7 * i) % 16

/-- One MD5 round on the state `(a, b, c, d)`. -/
def mdRound (w : List Nat) (st : Nat × Nat × Nat × Nat) (i : Nat) :
    Nat × Nat × Nat × Nat :=
  let (a, b, c, d) := st
  let f :=
    if i < 16 then mdF b c d
    else if i < 32 then mdG b c d
    else if i < 48 then mdH b c d
    else mdI b c d
  let tmp := add32 (add32 (add32 a f) (kTable.getD i 0)) (w.getD (gIndex i) 0)
  (d, add32 b (rotl32 tmp (sTable.getD i 0)), b, c)

/-- Little-endian byte serialization of `x` into `n` bytes. -/
def leBytes : Nat → Nat → List Nat
  | 0, _ => []
  | n + 1, x => (x % 256) :: leBytes n (x / 256)

/-- Assemble a 64-byte chunk into 16 little-endian 32-bit words. -/
def toWords : List Nat → List Nat
  | b0 :: b1 :: b2 :: b3 :: rest =>
      (b0 + 256 * b1 + 65536 * b2 + 16777216 * b3) :: toWords rest
  | _ => []

/-- Process one 64-byte chunk, updating the running state. -/
def processChunk (st : Nat × Nat × Nat × Nat) (chunk : List Nat) :
    Nat × Nat × Nat × Nat :=
  let w := toWords chunk
  let r := (List.range 64).foldl (mdRound w) st
  (add32 st.1 r.1, add32 st.2.1 r.2.1, add32 st.2.2.1 r.2.2.1,
   add32 st.2.2.2 r.2.2.2)

/-- Split a byte list into successive 64-byte chunks. -/
def chunks64 : List Nat → List (List Nat)
  | [] => []
  | b :: rest => (b :: rest).take 64 :: chunks64 ((b :: rest).drop 64)
termination_by l => l.length
decreasing_by
  simp only [List.length_drop, List.length_cons]
  omega

/-- MD5 padding: a `0x80` byte, zeros to 56 mod 64, then the bit length
as 8 little-endian bytes. -/
def padBytes (msg : List Nat) : List Nat :=
  let len := msg.length
  let zeros := (56 + 64 - (len + 1) % 64) % 64
  msg ++ [128] ++ List.replicate zeros 0 ++ leBytes 8 ((8 * len) % (2 ^ 64))

/-- MD5 digest of a byte list, as 16 bytes. -/
def md5Bytes (msg : List Nat) : List Nat :=
  let init : Nat × Nat × Nat × Nat :=
    (0x67452301, 0xefcdab89, 0x98badcfe, 0x10325476)
  let r := (chunks64 (padBytes msg)).foldl processChunk init
  leBytes 4 r.1 ++ leBytes 4 r.2.1 ++ leBytes 4 r.2.2.1 ++ leBytes 4 r.2.2.2

/-- Lowercase hexadecimal digit. -/
def hexDigit (n : Nat) : Char :=
  if n < 10 then Char.ofNat (48 + n) else Char.ofNat (87 + n)

/-- Two lowercase hex characters for one byte. -/
def byteHex (b : Nat) : List Char :=
  [hexDigit (b / 16), hexDigit (b % 16)]

/-- UTF-8 encoding of one character, as byte values. -/
def utf8Char (c : Char) : List Nat :=
  let n := c.toNat
  if n < 128 then [n]
  else if n < 2048 then [192 + n / 64, 128 + n % 64]
  else if n < 65536 then
    [224 + n / 4096, 128 + (n / 64) % 64, 128 + n % 64]
  else
    [240 + n / 262144, 128 + (n / 4096) % 64, 128 + (n / 64) % 64,
     128 + n % 64]

/-- UTF-8 encoding of a string, as byte values (Python
`str.encode('utf-8')`). -/
def utf8Bytes (s : String) : List Nat :=
  (s.data.map utf8Char).flatten

/-- MD5 lowercase hex digest of the UTF-8 bytes of a string (Python
`hashlib.md5(payload.encode('utf-8')).hexdigest()`). -/
def md5Hex (s : String) : String :=
  String.mk (((md5Bytes (utf8Bytes s)).map byteHex).flatten)

end IceMaker.MD5

namespace IceMaker.Fingerprint

/-- `pipeline/fingerprint.py` `compute_fingerprint`: concatenate
source id, raw name and raw address with `|` separators, lowercase the
whole payload, strip it at the ends only, and hash with MD5. -/
def compute_fingerprint (source_id : Nat) (raw_name raw_address : String) :
    String :=
  MD5.md5Hex (pyStrip (pyLower
    (toString source_id ++ "|" ++ raw_name ++ "|" ++ raw_address)))

end IceMaker.Fingerprint

namespace IceMaker

/-- C10: the matcher's and the promoter's comparison normalizations are
extensionally equal: for every input, including `None` and the empty
string, `_normalize_for_dedup` and `_normalize` return the same
normalized string. -/
theorem normalize_for_dedup_eq_promoter_normalize :
    ∀ text : Option String,
      Matcher._normalize_for_dedup text = Promoter._normalize text := by
  intro text
  rfl

/-- String append distributes through the ASCII lowercase map. -/
theorem pyLower_append (s t : String) :
    pyLower (s ++ t) = pyLower s ++ pyLower t := by
  cases s with
  | mk l =>
      cases t with
      | mk m =>
          show String.mk ((l ++ m).map asciiLowerChar) =
            String.mk (l.map asciiLowerChar ++ m.map asciiLowerChar)
          rw [List.map_append]

/-- C4 counterexample: `compute_fingerprint` lowercases the joined
payload before hashing, so two triples that differ in the case of the
name and address fields produce the same digest; the fingerprint is not
injective over `(source_id, raw_name, raw_address)`. -/
theorem compute_fingerprint_collision :
    Fingerprint.compute_fingerprint 1 "Rink A" "100 Main St" =
      Fingerprint.compute_fingerprint 1 "RINK A" "100 MAIN ST" ∧
    ("Rink A", "100 Main St") ≠ ("RINK A", "100 MAIN ST") := by
  refine ⟨congrArg MD5.md5Hex ?_, by decide⟩
  show pyStrip (pyLower (toString 1 ++ "|" ++ "Rink A" ++ "|" ++ "100 Main St")) =
    pyStrip (pyLower (toString 1 ++ "|" ++ "RINK A" ++ "|" ++ "100 MAIN ST"))
  decide

/-- C4 amended: the fingerprint identifies triples whose name and
address agree after ASCII lowercasing (the payload is lowercased and
stripped as a whole before MD5), so such triples always collide; only
the lowercased, stripped `source|name|address` payload is scoped by the
digest. -/
theorem compute_fingerprint_case_insensitive
    (source_id : Nat) (n1 n2 a1 a2 : String)
    (hn : pyLower n1 = pyLower n2) (ha : pyLower a1 = pyLower a2) :
    Fingerprint.compute_fingerprint source_id n1 a1 =
      Fingerprint.compute_fingerprint source_id n2 a2 := by
  unfold Fingerprint.compute_fingerprint
  have h : pyLower (toString source_id ++ "|" ++ n1 ++ "|" ++ a1) =
      pyLower (toString source_id ++ "|" ++ n2 ++ "|" ++ a2) := by
    simp only [pyLower_append, hn, ha]
  rw [h]

/-- Witness for the amended C4 theorem at a concrete input. -/
theorem compute_fingerprint_case_insensitive_witness :
    pyLower "Rink A" = pyLower "rINK a" ∧
    Fingerprint.compute_fingerprint 7 "Rink A" "100 Main St" =
      Fingerprint.compute_fingerprint 7 "rINK a" "100 Main St" :=
  ⟨by decide,
   compute_fingerprint_case_insensitive 7 "Rink A" "rINK a"
     "100 Main St" "100 Main St" (by decide) (by decide)⟩

/-- C1: for every raw entry and every behavior of the external tagger
and mojibake round trip, `_parse_entry` returns either a parsed record
or an error string (no third outcome, no uncaught exception), and its
name-cleanup composition is total over every input name string. -/
theorem parse_entry_total (fix : String → Option String)
    (tag : String → Except String Runner.TagParts) (raw : Runner.RawEntry) :
    ((∃ p, Runner._parse_entry fix tag raw = Except.ok p) ∨
      (∃ e, Runner._parse_entry fix tag raw = Except.error e)) ∧
    (∀ s : String, ∃ t : String,
      Utils._expand_rec_ctrs (Utils.reset_utf8 fix s) = t) := by
  constructor
  · cases h : Runner._parse_entry fix tag raw with
    | ok p => exact Or.inl ⟨p, rfl⟩
    | error e => exact Or.inr ⟨e, rfl⟩
  · intro s
    exact ⟨Utils._expand_rec_ctrs (Utils.reset_utf8 fix s), rfl⟩

/-- C9: when the geocode lookup returns null, `geocode_candidate` sets
the verification status to `geocode_failed` and changes nothing else:
`geo_lat`, `geo_lon`, `geo_confidence`, `geo_matched_name` and `zip`
(and every other field) keep their values. -/
theorem geocode_candidate_null_frame (ratio : String → String → Rat)
    (c : Candidate) :
    Geocoder.geocode_candidate ratio none c =
      ({ c with verification_status := "geocode_failed" }, "geocode_failed") ∧
    (Geocoder.geocode_candidate ratio none c).1.geo_lat = c.geo_lat ∧
    (Geocoder.geocode_candidate ratio none c).1.geo_lon = c.geo_lon ∧
    (Geocoder.geocode_candidate ratio none c).1.geo_confidence = c.geo_confidence ∧
    (Geocoder.geocode_candidate ratio none c).1.geo_matched_name = c.geo_matched_name ∧
    (Geocoder.geocode_candidate ratio none c).1.zip = c.zip ∧
    (Geocoder.geocode_candidate ratio none c).1.verification_status = "geocode_failed" :=
  ⟨rfl, rfl, rfl, rfl, rfl, rfl, rfl⟩

/-- With no street and no city sub-score, `_score_address` is exactly
the state sub-score when the latter is present. -/
theorem score_address_state_only (ratio : String → String → Rat)
    (st : String) (d : Geocoder.GeoDetail) (v : Rat)
    (h : Geocoder.stateSubScore ratio st d = some v) :
    Geocoder._score_address ratio none none (some st) d = v := by
  simp [Geocoder._score_address, h]

/-- With no street and no city sub-score and no state sub-score,
`_score_address` is `0`. -/
theorem score_address_state_none (ratio : String → String → Rat)
    (st : String) (d : Geocoder.GeoDetail)
    (h : Geocoder.stateSubScore ratio st d = none) :
    Geocoder._score_address ratio none none (some st) d = 0 := by
  simp [Geocoder._score_address, h]

/-- C6 counterexample: the candidate state `CA` equals the (uppercased)
first two letters of the result state name `California`, yet because
the result carries the ISO code `US-NY` the state sub-score is `0.0`,
not `1.0` and not a name similarity (the ratio is constantly `1` here,
so no similarity reading yields `0`). -/
theorem score_address_state_counterexample :
    Geocoder._score_address (fun _ _ => 1) none none (some "CA")
      ⟨"", "", "", "", "California", "US-NY", none⟩ = 0 ∧
    pyUpper (pyTake (pyStrip "California") 2) = pyUpper (pyStrip "CA") ∧
    (0 : Rat) ≠ 1 := by
  refine ⟨score_address_state_only (fun _ _ => 1) "CA" _ 0 (by decide), by decide, by norm_num⟩

/-- C6 amended: for a non-empty candidate state, the state sub-score is
decided by the ISO subdivision code whenever the result carries one:
`1.0` on suffix equality and `0.0` otherwise.  Only when no ISO code is
present is the state name consulted: `1.0` on equality or when the
candidate state starts with its first two letters, else the similarity
ratio of the two (upper-cased) names; with neither component the score
is `0.0`. -/
theorem score_address_state (ratio : String → String → Rat) (st : String)
    (d : Geocoder.GeoDetail) (hst : st ≠ "") :
    (d.iso ≠ "" →
      Geocoder._score_address ratio none none (some st) d =
        (if pyUpper (pyStrip st) = pyUpper ((pySplitOn d.iso '-').getLastD "")
         then 1 else 0)) ∧
    (d.iso = "" → d.state ≠ "" →
      Geocoder._score_address ratio none none (some st) d =
        (if pyUpper (pyStrip st) = pyUpper (pyStrip d.state) ∨
            pyStartswith (pyUpper (pyStrip st)) (pyTake (pyUpper (pyStrip d.state)) 2) = true
         then 1 else ratio (pyUpper (pyStrip st)) (pyUpper (pyStrip d.state)))) ∧
    (d.iso = "" → d.state = "" →
      Geocoder._score_address ratio none none (some st) d = 0) := by
  refine ⟨?_, ?_, ?_⟩
  · intro hiso
    refine score_address_state_only ratio st d _ ?_
    simp [Geocoder.stateSubScore, hst, hiso]
  · intro hiso hstate
    refine score_address_state_only ratio st d _ ?_
    simp [Geocoder.stateSubScore, hst, hiso, hstate]
  · intro hiso hstate
    refine score_address_state_none ratio st d ?_
    simp [Geocoder.stateSubScore, hst, hiso, hstate]

/-- Witness for the amended C6 theorem: a matching ISO suffix scores
`1.0` at a concrete input. -/
theorem score_address_state_witness :
    Geocoder._score_address (fun _ _ => 0) none none (some "NC")
      ⟨"", "", "", "", "North Carolina", "US-NC", none⟩ = 1 := by
  have h := (score_address_state (fun _ _ => 0) "NC"
    ⟨"", "", "", "", "North Carolina", "US-NC", none⟩ (by decide)).1 (by decide)
  rw [h]
  decide

/-- C5 counterexample: a previously inserted unverified street-less
candidate in the same city and state with the identical name is NOT
layer-2-matched by a new candidate that has a street: the extended pool
is consulted only when the new candidate itself lacks a street, so
`find_duplicate` returns no match here (even with the similarity ratio
constantly `1`), contradicting the claim that the extended pool is used
whenever either side lacks a street. -/
theorem find_duplicate_extended_pool_counterexample :
    Matcher.find_duplicate (fun _ _ => 1) (fun _ _ _ _ => 0)
      [⟨1, 1, "Polar Ice", none, some "Raleigh", some "NC", none, none,
        none, none, none, none, "unverified", none⟩]
      ⟨2, 2, "Polar Ice", some "100 MAIN STREET", some "Raleigh", some "NC",
        none, none, none, none, none, none, "unverified", none⟩ = none ∧
    Matcher._normalize_for_dedup (some "100 MAIN STREET") ≠ "" ∧
    Matcher._normalize_for_dedup (none : Option String) = "" := by
  refine ⟨by decide, by decide, by decide⟩

/-- C5 amended: the extended pool (verified statuses plus `unverified`)
is consulted only when the NEW candidate has no normalized street; when
the new candidate has a street, every match that `find_duplicate`
returns — in any layer — has a verified-pool status, so a street-less
unverified candidate can never be matched by a candidate with a
street.  The threshold relaxation, by contrast, does depend on either
side. -/
theorem find_duplicate_verified_pool_when_street
    (ratio : String → String → Rat) (hav : Rat → Rat → Rat → Rat → Rat)
    (others : List Candidate) (cand o : Candidate) (layer : String)
    (h : Matcher.find_duplicate ratio hav others cand = some (o, layer))
    (hs : Matcher._normalize_for_dedup cand.street ≠ "") :
    o.verification_status ∈ Matcher.verifiedStatuses := by
  have hpool : ∀ o' : Candidate,
      o' ∈ others.filter (fun o' =>
        o'.id != cand.id &&
          Matcher.verifiedStatuses.contains o'.verification_status) →
      o'.verification_status ∈ Matcher.verifiedStatuses := by
    intro o' ho'
    have hf := List.of_mem_filter ho'
    simp only [Bool.and_eq_true] at hf
    exact List.mem_of_elem_eq_true hf.2
  simp only [Matcher.find_duplicate] at h
  rw [if_pos hs] at h
  split at h
  · rename_i o1 heq
    cases h
    exact hpool _ (List.mem_of_find?_eq_some heq)
  · split at h
    · rename_i o2 heq2
      cases h
      exact hpool _ (List.mem_of_find?_eq_some heq2)
    · split at h
      · rename_i lat lon
        obtain ⟨o3, hfind, hfo⟩ := Option.map_eq_some'.mp h
        cases hfo
        exact hpool _ (List.mem_of_find?_eq_some hfind)
      · exact Option.noConfusion h

/-- A `find?` is unchanged by first filtering with a weaker predicate. -/
theorem find?_eq_find?_filter {α : Type} (p q : α → Bool)
    (himp : ∀ a, p a = true → q a = true) :
    ∀ l : List α, l.find? p = (l.filter q).find? p := by
  intro l
  induction l with
  | nil => rfl
  | cons a l ih =>
      by_cases hp : p a = true
      · simp [List.find?_cons, hp, List.filter_cons, himp a hp]
      · cases hq : q a with
        | true =>
            simp only [List.filter_cons, hq, if_true, List.find?_cons]
            simp only [Bool.not_eq_true] at hp
            simp [hp, ih]
        | false =>
            simp only [List.filter_cons, hq, List.find?_cons]
            simp only [Bool.not_eq_true] at hp
            simp [hp, ih]

/-- In a pairwise-separated list, a filter whose matches are pairwise
related to nothing collapses to the one known match. -/
theorem filter_eq_singleton_unique {α : Type} (p : α → Bool)
    (R : α → α → Prop) :
    ∀ l : List α, l.Pairwise R → ∀ a, a ∈ l → p a = true →
      (∀ x ∈ l, ∀ y ∈ l, p x = true → p y = true → ¬R x y) →
      l.filter p = [a] := by
  intro l
  induction l with
  | nil => intro _ a ha; exact absurd ha (List.not_mem_nil a)
  | cons x xs ih =>
      intro hpw a ha hpa hcon
      have hR := List.pairwise_cons.mp hpw
      rcases List.mem_cons.mp ha with hax | haxs
      · subst hax
        rw [List.filter_cons, if_pos hpa]
        have hnil : xs.filter p = [] := by
          rw [List.filter_eq_nil_iff]
          intro y hy hpy
          exact hcon a (List.mem_cons_self a xs) y (List.mem_cons_of_mem _ hy)
            hpa hpy (hR.1 y hy)
        rw [hnil]
      · by_cases hpx : p x = true
        · exact absurd (hR.1 a haxs)
            (hcon x (List.mem_cons_self x xs) a (List.mem_cons_of_mem x haxs)
              hpx hpa)
        · rw [List.filter_cons, if_neg hpx]
          exact ih hR.2 a haxs hpa (fun u hu v hv hpu hpv =>
            hcon u (List.mem_cons_of_mem x hu) v (List.mem_cons_of_mem x hv)
              hpu hpv)

/-- A double filter over a map pulls back to one filter before the
map. -/
theorem filter_filter_map_eq {α β : Type} (f : α → β) (g pS : β → Bool) :
    ∀ l : List α,
      ((l.map f).filter g).filter pS =
        (l.filter (fun a => pS (f a) && g (f a))).map f := by
  intro l
  induction l with
  | nil => rfl
  | cons a l ih =>
      cases hg : g (f a) with
      | true =>
          cases hp : pS (f a) with
          | true => simp [List.filter_cons, hg, hp, ih]
          | false => simp [List.filter_cons, hg, hp, ih]
      | false => simp [List.filter_cons, hg, ih]

/-- A filter over a map pulls back to a filter before the map. -/
theorem filter_map_eq {α β : Type} (f : α → β) (pS : β → Bool) :
    ∀ l : List α,
      (l.map f).filter pS = (l.filter (fun a => pS (f a))).map f := by
  intro l
  induction l with
  | nil => rfl
  | cons a l ih =>
      cases hp : pS (f a) with
      | true => simp [List.filter_cons, hp, ih]
      | false => simp [List.filter_cons, hp, ih]

/-- Mapping a function that fixes every member is the identity. -/
theorem map_eq_self_of_mem {α : Type} (f : α → α) :
    ∀ l : List α, (∀ a ∈ l, f a = a) → l.map f = l := by
  intro l
  induction l with
  | nil => intro _; rfl
  | cons a l ih =>
      intro h
      rw [List.map_cons, h a (List.mem_cons_self a l),
        ih (fun b hb => h b (List.mem_cons_of_mem a hb))]

/-- `widen_first` computes the minimum of the non-null first-seen
values. -/
theorem widen_first_eq_minSeen (tgt link : Option Nat) :
    Demoter.widen_first tgt link = Demoter.minSeen link tgt := by
  cases link with
  | none => cases tgt <;> rfl
  | some l =>
      cases tgt with
      | none => rfl
      | some t =>
          show (if l < t then some l else some t) = some (min l t)
          rw [← apply_ite some]
          congr 1
          split <;> omega

/-- `widen_last` computes the maximum of the non-null last-seen
values. -/
theorem widen_last_eq_maxSeen (tgt link : Option Nat) :
    Demoter.widen_last tgt link = Demoter.maxSeen link tgt := by
  cases link with
  | none => cases tgt <;> rfl
  | some l =>
      cases tgt with
      | none => rfl
      | some t =>
          show (if t < l then some l else some t) = some (max l t)
          rw [← apply_ite some]
          congr 1
          split <;> omega

/-- `minSeen` with a null second component is the first component. -/
theorem minSeen_none_right (x : Option Nat) :
    Demoter.minSeen x none = x := by
  cases x <;> rfl

/-- `maxSeen` with a null second component is the first component. -/
theorem maxSeen_none_right (x : Option Nat) :
    Demoter.maxSeen x none = x := by
  cases x <;> rfl

/-- Each row surviving a `mergeLinkStep` inherits its id and source id
from a row of the input table. -/
theorem mergeLinkStep_keeps (into_id : String)
    (tbl : List Demoter.LocSourceRow) (link : Demoter.LocSourceRow) :
    ∀ r ∈ Demoter.mergeLinkStep into_id tbl link,
      ∃ r0 ∈ tbl, r.id = r0.id ∧ r.source_id = r0.source_id := by
  intro r hr
  unfold Demoter.mergeLinkStep at hr
  split at hr
  · have hr2 := List.mem_of_mem_filter hr
    obtain ⟨r0, hr0, hfr0⟩ := List.mem_map.mp hr2
    exact ⟨r0, hr0, by rw [← hfr0]; split <;> rfl,
      by rw [← hfr0]; split <;> rfl⟩
  · obtain ⟨r0, hr0, hfr0⟩ := List.mem_map.mp hr
    exact ⟨r0, hr0, by rw [← hfr0]; split <;> rfl,
      by rw [← hfr0]; split <;> rfl⟩

/-- `mergeLinkStep` preserves pairwise-distinct row ids. -/
theorem mergeLinkStep_pairwise_ids (into_id : String)
    (tbl : List Demoter.LocSourceRow) (link : Demoter.LocSourceRow)
    (h : tbl.Pairwise (fun a b => a.id ≠ b.id)) :
    (Demoter.mergeLinkStep into_id tbl link).Pairwise
      (fun a b => a.id ≠ b.id) := by
  unfold Demoter.mergeLinkStep
  split
  · refine List.Pairwise.sublist (List.filter_sublist _)
      (List.pairwise_map.mpr (h.imp ?_))
    intro a b hab
    show ((if a.id = _ then _ else a).id ≠ (if b.id = _ then _ else b).id)
    split <;> split <;> exact hab
  · refine List.pairwise_map.mpr (h.imp ?_)
    intro a b hab
    show ((if a.id = _ then _ else a).id ≠ (if b.id = _ then _ else b).id)
    split <;> split <;> exact hab

/-- A filter after an element-fixing map-and-delete pass is the plain
filter, when the filtered class is fixed by the map and missed by the
deletion. -/
theorem filter_of_map_filter_invariant {A : Type} (f : A → A)
    (g pS : A → Bool) :
    ∀ l : List A,
      (∀ a ∈ l, pS (f a) = pS a) →
      (∀ a ∈ l, pS a = true → f a = a ∧ g (f a) = true) →
      ((l.map f).filter g).filter pS = l.filter pS := by
  intro l
  induction l with
  | nil => intro _ _; rfl
  | cons a l ih =>
      intro h1 h2
      have ih2 := ih (fun b hb => h1 b (List.mem_cons_of_mem a hb))
        (fun b hb => h2 b (List.mem_cons_of_mem a hb))
      cases hpa : pS a with
      | true =>
          obtain ⟨hfa, hga⟩ := h2 a (List.mem_cons_self a l) hpa
          rw [List.map_cons, List.filter_cons, if_pos hga, List.filter_cons,
            hfa, if_pos hpa, List.filter_cons, if_pos hpa, ih2]
      | false =>
          have hpfa : pS (f a) = false := by
            rw [h1 a (List.mem_cons_self a l), hpa]
          cases hga : g (f a) with
          | true =>
              rw [List.map_cons, List.filter_cons, if_pos hga,
                List.filter_cons, hpfa, List.filter_cons, hpa]
              simpa using ih2
          | false =>
              rw [List.map_cons, List.filter_cons, if_neg (by simp [hga]),
                List.filter_cons, hpa]
              simpa using ih2

/-- A filter after an element-fixing map is the plain filter, when the
filtered class is fixed by the map. -/
theorem filter_of_map_invariant {A : Type} (f : A → A) (pS : A → Bool) :
    ∀ l : List A,
      (∀ a ∈ l, pS (f a) = pS a) →
      (∀ a ∈ l, pS a = true → f a = a) →
      (l.map f).filter pS = l.filter pS := by
  intro l
  induction l with
  | nil => intro _ _; rfl
  | cons a l ih =>
      intro h1 h2
      have ih2 := ih (fun b hb => h1 b (List.mem_cons_of_mem a hb))
        (fun b hb => h2 b (List.mem_cons_of_mem a hb))
      cases hpa : pS a with
      | true =>
          have hfa := h2 a (List.mem_cons_self a l) hpa
          rw [List.map_cons, List.filter_cons, hfa, if_pos hpa,
            List.filter_cons, if_pos hpa, ih2]
      | false =>
          have hpfa : pS (f a) = false := by
            rw [h1 a (List.mem_cons_self a l), hpa]
          rw [List.map_cons, List.filter_cons, hpfa, List.filter_cons, hpa]
          simpa using ih2

/-- The id-distinctness relation on rows is symmetric. -/
theorem rowIdNeSymm :
    Symmetric (fun a b : Demoter.LocSourceRow => a.id ≠ b.id) :=
  fun _ _ h => Ne.symm h

/-- A `mergeLinkStep` for a link of a different source leaves the rows
of source `s` untouched. -/
theorem mergeLinkStep_filter_source (s : Nat) (into_id : String)
    (tbl : List Demoter.LocSourceRow) (link : Demoter.LocSourceRow)
    (hids : tbl.Pairwise (fun a b => a.id ≠ b.id))
    (hidsrc : ∀ r ∈ tbl, r.id = link.id → r.source_id = link.source_id)
    (hsrc : link.source_id ≠ s) :
    (Demoter.mergeLinkStep into_id tbl link).filter
      (fun r => r.source_id == s) =
      tbl.filter (fun r => r.source_id == s) := by
  unfold Demoter.mergeLinkStep
  split
  · rename_i tgt hf
    have htgtmem := List.mem_of_find?_eq_some hf
    have htgtp := List.find?_some hf
    simp only [Bool.and_eq_true, beq_iff_eq] at htgtp
    refine filter_of_map_filter_invariant _ _ _ tbl ?_ ?_
    · intro a _
      split <;> rfl
    · intro a ha hpa
      have hsa : a.source_id = s := by simpa using hpa
      have hneval : a ≠ tgt := by
        intro he
        exact hsrc (by rw [← htgtp.2, ← he, hsa])
      have hid : a.id ≠ tgt.id :=
        List.Pairwise.forall rowIdNeSymm hids ha htgtmem hneval
      have hfa : (if a.id = tgt.id then
          { a with
            first_seen_at := Demoter.widen_first a.first_seen_at link.first_seen_at
            last_seen_at := Demoter.widen_last a.last_seen_at link.last_seen_at }
        else a) = a := if_neg hid
      refine ⟨hfa, ?_⟩
      rw [hfa]
      have hnl : a.id ≠ link.id := by
        intro heq
        exact hsrc (hsa ▸ (hidsrc a ha heq).symm)
      simpa using hnl
  · refine filter_of_map_invariant _ _ tbl ?_ ?_
    · intro a _
      split <;> rfl
    · intro a ha hpa
      have hsa : a.source_id = s := by simpa using hpa
      have hnl : a.id ≠ link.id := by
        intro heq
        exact hsrc (hsa ▸ (hidsrc a ha heq).symm)
      exact if_neg hnl

/-- Folding `mergeLinkStep` over links of other sources preserves the
rows of source `s`, the id-distinctness, and the id/source ancestry. -/
theorem foldl_mergeLinkStep_filter_source
    (T0 : List Demoter.LocSourceRow)
    (hT0 : T0.Pairwise (fun a b => a.id ≠ b.id))
    (s : Nat) (into_id : String) :
    ∀ (links : List Demoter.LocSourceRow) (tbl : List Demoter.LocSourceRow),
      (∀ l ∈ links, l ∈ T0 ∧ l.source_id ≠ s) →
      tbl.Pairwise (fun a b => a.id ≠ b.id) →
      (∀ r ∈ tbl, ∃ r0 ∈ T0, r.id = r0.id ∧ r.source_id = r0.source_id) →
      (links.foldl (Demoter.mergeLinkStep into_id) tbl).filter
          (fun r => r.source_id == s) =
        tbl.filter (fun r => r.source_id == s) ∧
      (links.foldl (Demoter.mergeLinkStep into_id) tbl).Pairwise
          (fun a b => a.id ≠ b.id) ∧
      (∀ r ∈ links.foldl (Demoter.mergeLinkStep into_id) tbl,
        ∃ r0 ∈ T0, r.id = r0.id ∧ r.source_id = r0.source_id) := by
  intro links
  induction links with
  | nil => intro tbl _ hidstbl hcompat; exact ⟨rfl, hidstbl, hcompat⟩
  | cons l ls ih =>
      intro tbl hlinks hidstbl hcompat
      have hl := hlinks l (List.mem_cons_self l ls)
      have hidsrc : ∀ r ∈ tbl, r.id = l.id → r.source_id = l.source_id := by
        intro r hr hrid
        obtain ⟨r0, hr0, hid0, hsrc0⟩ := hcompat r hr
        have hr0l : r0 = l := by
          by_contra hne0
          exact (List.Pairwise.forall rowIdNeSymm hT0 hr0 hl.1 hne0)
            (hid0.symm.trans hrid)
        rw [hsrc0, hr0l]
      have hstep_ids := mergeLinkStep_pairwise_ids into_id tbl l hidstbl
      have hstep_compat : ∀ r ∈ Demoter.mergeLinkStep into_id tbl l,
          ∃ r0 ∈ T0, r.id = r0.id ∧ r.source_id = r0.source_id := by
        intro r hr
        obtain ⟨r1, hr1, hid1, hsrc1⟩ := mergeLinkStep_keeps into_id tbl l r hr
        obtain ⟨r0, hr0, hid0, hsrc0⟩ := hcompat r1 hr1
        exact ⟨r0, hr0, hid1.trans hid0, hsrc1.trans hsrc0⟩
      have hfold := ih (Demoter.mergeLinkStep into_id tbl l)
        (fun x hx => hlinks x (List.mem_cons_of_mem l hx)) hstep_ids
        hstep_compat
      rw [List.foldl_cons]
      refine ⟨?_, hfold.2.1, hfold.2.2⟩
      rw [hfold.1]
      exact mergeLinkStep_filter_source s into_id tbl l hidstbl hidsrc hl.2

/-- The symmetric uniqueness relation on (location, source) pairs. -/
theorem rowPairNeSymm :
    Symmetric (fun a b : Demoter.LocSourceRow =>
      ¬(a.location_id = b.location_id ∧ a.source_id = b.source_id)) :=
  fun _ _ h hab => h ⟨hab.1.symm, hab.2.symm⟩

/-- After the `merge_locations` source-link loop, the target location
has exactly one row for any source the source location was linked to,
and its window is the conservative union of the two old windows. -/
theorem merge_fold_filter_into
    (T0 : List Demoter.LocSourceRow) (from_id into_id : String)
    (hne : from_id ≠ into_id)
    (hids : T0.Pairwise (fun a b => a.id ≠ b.id))
    (hpairs : T0.Pairwise (fun a b =>
      ¬(a.location_id = b.location_id ∧ a.source_id = b.source_id)))
    (s : Nat) (rF : Demoter.LocSourceRow)
    (hrF : T0.find? (fun r =>
      r.location_id == from_id && r.source_id == s) = some rF) :
    ∃ r', ((T0.filter (fun r => r.location_id == from_id)).foldl
        (Demoter.mergeLinkStep into_id) T0).filter
        (fun r => r.location_id == into_id && r.source_id == s) = [r'] ∧
      r'.first_seen_at = Demoter.minSeen rF.first_seen_at
        ((T0.find? (fun r =>
          r.location_id == into_id && r.source_id == s)).bind
          (fun r => r.first_seen_at)) ∧
      r'.last_seen_at = Demoter.maxSeen rF.last_seen_at
        ((T0.find? (fun r =>
          r.location_id == into_id && r.source_id == s)).bind
          (fun r => r.last_seen_at)) := by
  have hrFmem := List.mem_of_find?_eq_some hrF
  have hrFp := List.find?_some hrF
  simp only [Bool.and_eq_true, beq_iff_eq] at hrFp
  obtain ⟨hrFloc, hrFsrc⟩ := hrFp
  have hrFsl : rF ∈ T0.filter (fun r => r.location_id == from_id) :=
    List.mem_filter.mpr ⟨hrFmem, by simp [hrFloc]⟩
  obtain ⟨sl1, sl2, hsl⟩ := List.append_of_mem hrFsl
  have hslpw : (T0.filter (fun r => r.location_id == from_id)).Pairwise
      (fun a b => a.id ≠ b.id) :=
    hids.sublist (List.filter_sublist _)
  rw [hsl] at hslpw
  have hsplit := List.pairwise_append.mp hslpw
  have hcons := List.pairwise_cons.mp hsplit.2.1
  have hmem_sl : ∀ x, x ∈ sl1 ∨ x ∈ sl2 →
      x ∈ T0 ∧ x.location_id = from_id := by
    intro x hx
    have hxsl : x ∈ T0.filter (fun r => r.location_id == from_id) := by
      rw [hsl]
      rcases hx with h | h
      · exact List.mem_append_left _ h
      · exact List.mem_append_right _ (List.mem_cons_of_mem rF h)
    exact ⟨List.mem_of_mem_filter hxsl, by simpa using List.of_mem_filter hxsl⟩
  have hsrc_ne : ∀ x, x ∈ sl1 ∨ x ∈ sl2 → x.id ≠ rF.id → x.source_id ≠ s := by
    intro x hx hxid hxs
    obtain ⟨hxmem, hxloc⟩ := hmem_sl x hx
    have hxne : x ≠ rF := fun he => hxid (by rw [he])
    exact (List.Pairwise.forall rowPairNeSymm hpairs hxmem hrFmem hxne)
      ⟨hxloc.trans hrFloc.symm, hxs.trans hrFsrc.symm⟩
  have hlinks1 : ∀ l ∈ sl1, l ∈ T0 ∧ l.source_id ≠ s := fun l hl =>
    ⟨(hmem_sl l (Or.inl hl)).1,
     hsrc_ne l (Or.inl hl)
       (hsplit.2.2 l hl rF (List.mem_cons_self rF sl2))⟩
  have hlinks2 : ∀ l ∈ sl2, l ∈ T0 ∧ l.source_id ≠ s := fun l hl =>
    ⟨(hmem_sl l (Or.inr hl)).1,
     hsrc_ne l (Or.inr hl) (Ne.symm (hcons.1 l hl))⟩
  rw [hsl, List.foldl_append, List.foldl_cons]
  obtain ⟨hselA, hpwA, hcompatA⟩ :=
    foldl_mergeLinkStep_filter_source T0 hids s into_id sl1 T0 hlinks1 hids
      (fun r hr => ⟨r, hr, rfl, rfl⟩)
  generalize htbl1 : sl1.foldl (Demoter.mergeLinkStep into_id) T0 = tbl1
  rw [htbl1] at hselA hpwA hcompatA
  have himp : ∀ r : Demoter.LocSourceRow,
      (r.location_id == into_id && r.source_id == s) = true →
      (r.source_id == s) = true := by
    intro r h
    simp only [Bool.and_eq_true] at h
    exact h.2
  have hfind_tbl1 : tbl1.find? (fun r =>
      r.location_id == into_id && r.source_id == s) =
      T0.find? (fun r => r.location_id == into_id && r.source_id == s) := by
    rw [find?_eq_find?_filter _ _ himp tbl1, hselA,
      ← find?_eq_find?_filter _ _ himp T0]
  have hrF1 : rF ∈ tbl1 := by
    have h1 : rF ∈ T0.filter (fun r => r.source_id == s) :=
      List.mem_filter.mpr ⟨hrFmem, by simp [hrFsrc]⟩
    rw [← hselA] at h1
    exact List.mem_of_mem_filter h1
  have hintoS : ∀ x ∈ tbl1,
      (x.location_id == into_id && x.source_id == s) = true → x ∈ T0 := by
    intro x hx hpx
    simp only [Bool.and_eq_true] at hpx
    have hxs : x ∈ tbl1.filter (fun r => r.source_id == s) :=
      List.mem_filter.mpr ⟨hx, hpx.2⟩
    rw [hselA] at hxs
    exact List.mem_of_mem_filter hxs
  cases hoInto : T0.find? (fun r =>
      r.location_id == into_id && r.source_id == s) with
  | some rI =>
      have hrImem0 := List.mem_of_find?_eq_some hoInto
      have hrIp := List.find?_some hoInto
      simp only [Bool.and_eq_true, beq_iff_eq] at hrIp
      obtain ⟨hrIloc, hrIsrc⟩ := hrIp
      have hrI1 : rI ∈ tbl1 := by
        have h1 : rI ∈ T0.filter (fun r => r.source_id == s) :=
          List.mem_filter.mpr ⟨hrImem0, by simp [hrIsrc]⟩
        rw [← hselA] at h1
        exact List.mem_of_mem_filter h1
      have hrIrFne : rI ≠ rF := by
        intro he
        exact hne (hrFloc ▸ he ▸ hrIloc)
      have hrIrFid : rI.id ≠ rF.id :=
        List.Pairwise.forall rowIdNeSymm hpwA hrI1 hrF1 hrIrFne
      have hstep_eq : Demoter.mergeLinkStep into_id tbl1 rF =
          (tbl1.map (fun r =>
            if r.id = rI.id then
              { r with
                first_seen_at :=
                  Demoter.widen_first r.first_seen_at rF.first_seen_at
                last_seen_at :=
                  Demoter.widen_last r.last_seen_at rF.last_seen_at }
            else r)).filter (fun r => r.id != rF.id) := by
        unfold Demoter.mergeLinkStep
        rw [hrFsrc, hfind_tbl1, hoInto]
      rw [hstep_eq]
      have hδpw : ((tbl1.map (fun r =>
          if r.id = rI.id then
            { r with
              first_seen_at :=
                Demoter.widen_first r.first_seen_at rF.first_seen_at
              last_seen_at :=
                Demoter.widen_last r.last_seen_at rF.last_seen_at }
          else r)).filter (fun r => r.id != rF.id)).Pairwise
          (fun a b => a.id ≠ b.id) := by
        rw [← hstep_eq]
        exact mergeLinkStep_pairwise_ids into_id tbl1 rF hpwA
      have hδcompat : ∀ r ∈ (tbl1.map (fun r =>
          if r.id = rI.id then
            { r with
              first_seen_at :=
                Demoter.widen_first r.first_seen_at rF.first_seen_at
              last_seen_at :=
                Demoter.widen_last r.last_seen_at rF.last_seen_at }
          else r)).filter (fun r => r.id != rF.id),
          ∃ r0 ∈ T0, r.id = r0.id ∧ r.source_id = r0.source_id := by
        rw [← hstep_eq]
        intro r hr
        obtain ⟨r1, hr1, hid1, hsrc1⟩ :=
          mergeLinkStep_keeps into_id tbl1 rF r hr
        obtain ⟨r0, hr0, hid0, hsrc0⟩ := hcompatA r1 hr1
        exact ⟨r0, hr0, hid1.trans hid0, hsrc1.trans hsrc0⟩
      obtain ⟨hselB, _, _⟩ :=
        foldl_mergeLinkStep_filter_source T0 hids s into_id sl2 _ hlinks2
          hδpw hδcompat
      refine ⟨{ rI with
          first_seen_at :=
            Demoter.widen_first rI.first_seen_at rF.first_seen_at
          last_seen_at :=
            Demoter.widen_last rI.last_seen_at rF.last_seen_at }, ?_, ?_, ?_⟩
      · rw [← List.filter_filter, hselB, List.filter_filter]
        rw [filter_filter_map_eq]
        have hcongr : tbl1.filter (fun a =>
            ((if a.id = rI.id then
                { a with
                  first_seen_at :=
                    Demoter.widen_first a.first_seen_at rF.first_seen_at
                  last_seen_at :=
                    Demoter.widen_last a.last_seen_at rF.last_seen_at }
              else a).location_id == into_id &&
              (if a.id = rI.id then
                { a with
                  first_seen_at :=
                    Demoter.widen_first a.first_seen_at rF.first_seen_at
                  last_seen_at :=
                    Demoter.widen_last a.last_seen_at rF.last_seen_at }
              else a).source_id == s) &&
              ((if a.id = rI.id then
                { a with
                  first_seen_at :=
                    Demoter.widen_first a.first_seen_at rF.first_seen_at
                  last_seen_at :=
                    Demoter.widen_last a.last_seen_at rF.last_seen_at }
              else a).id != rF.id)) =
            tbl1.filter (fun a =>
              (a.location_id == into_id && a.source_id == s) &&
                (a.id != rF.id)) := by
          refine List.filter_congr ?_
          intro a _
          have h1 : (if a.id = rI.id then
              { a with
                first_seen_at :=
                  Demoter.widen_first a.first_seen_at rF.first_seen_at
                last_seen_at :=
                  Demoter.widen_last a.last_seen_at rF.last_seen_at }
            else a).location_id = a.location_id := by split <;> rfl
          have h2 : (if a.id = rI.id then
              { a with
                first_seen_at :=
                  Demoter.widen_first a.first_seen_at rF.first_seen_at
                last_seen_at :=
                  Demoter.widen_last a.last_seen_at rF.last_seen_at }
            else a).source_id = a.source_id := by split <;> rfl
          have h3 : (if a.id = rI.id then
              { a with
                first_seen_at :=
                  Demoter.widen_first a.first_seen_at rF.first_seen_at
                last_seen_at :=
                  Demoter.widen_last a.last_seen_at rF.last_seen_at }
            else a).id = a.id := by split <;> rfl
          rw [h1, h2, h3]
        rw [hcongr]
        have hsingle : tbl1.filter (fun a =>
            (a.location_id == into_id && a.source_id == s) &&
              (a.id != rF.id)) = [rI] := by
          refine filter_eq_singleton_unique _ _ tbl1 hpwA rI hrI1 ?_ ?_
          · simp [hrIloc, hrIsrc, hrIrFid]
          · intro x hx y hy hpx hpy hRxy
            simp only [Bool.and_eq_true, beq_iff_eq] at hpx hpy
            have hx0 := hintoS x hx (by simp [hpx.1.1, hpx.1.2])
            have hy0 := hintoS y hy (by simp [hpy.1.1, hpy.1.2])
            have hxy : x = y := by
              by_contra hne2
              exact (List.Pairwise.forall rowPairNeSymm hpairs hx0 hy0 hne2)
                ⟨hpx.1.1.trans hpy.1.1.symm, hpx.1.2.trans hpy.1.2.symm⟩
            exact hRxy (by rw [hxy])
        rw [hsingle, List.map_cons, List.map_nil, if_pos rfl]
      · exact widen_first_eq_minSeen rI.first_seen_at rF.first_seen_at
      · exact widen_last_eq_maxSeen rI.last_seen_at rF.last_seen_at
  | none =>
      have hstep_eq : Demoter.mergeLinkStep into_id tbl1 rF =
          tbl1.map (fun r =>
            if r.id = rF.id then { r with location_id := into_id } else r) := by
        unfold Demoter.mergeLinkStep
        rw [hrFsrc, hfind_tbl1, hoInto]
      rw [hstep_eq]
      have hempty : tbl1.filter (fun r =>
          r.location_id == into_id && r.source_id == s) = [] := by
        rw [List.filter_eq_nil_iff]
        intro x hx hpx
        have hx0 := hintoS x hx hpx
        exact absurd hpx (by
          have := List.find?_eq_none.mp hoInto x hx0
          simpa using this)
      have hδpw : (tbl1.map (fun r =>
          if r.id = rF.id then { r with location_id := into_id } else r)).Pairwise
          (fun a b => a.id ≠ b.id) := by
        rw [← hstep_eq]
        exact mergeLinkStep_pairwise_ids into_id tbl1 rF hpwA
      have hδcompat : ∀ r ∈ tbl1.map (fun r =>
          if r.id = rF.id then { r with location_id := into_id } else r),
          ∃ r0 ∈ T0, r.id = r0.id ∧ r.source_id = r0.source_id := by
        rw [← hstep_eq]
        intro r hr
        obtain ⟨r1, hr1, hid1, hsrc1⟩ :=
          mergeLinkStep_keeps into_id tbl1 rF r hr
        obtain ⟨r0, hr0, hid0, hsrc0⟩ := hcompatA r1 hr1
        exact ⟨r0, hr0, hid1.trans hid0, hsrc1.trans hsrc0⟩
      obtain ⟨hselB, _, _⟩ :=
        foldl_mergeLinkStep_filter_source T0 hids s into_id sl2 _ hlinks2
          hδpw hδcompat
      refine ⟨{ rF with location_id := into_id }, ?_, ?_, ?_⟩
      · rw [← List.filter_filter, hselB, List.filter_filter]
        rw [filter_map_eq]
        have hsingle : tbl1.filter (fun a =>
            ((if a.id = rF.id then { a with location_id := into_id }
              else a).location_id == into_id &&
              (if a.id = rF.id then { a with location_id := into_id }
              else a).source_id == s)) = [rF] := by
          refine filter_eq_singleton_unique _ _ tbl1 hpwA rF hrF1 ?_ ?_
          · simp [hrFsrc]
          · intro x hx y hy hpx hpy hRxy
            have hxid : x.id = rF.id := by
              by_contra hxid
              rw [if_neg hxid] at hpx
              have : x ∈ tbl1.filter (fun r =>
                  r.location_id == into_id && r.source_id == s) :=
                List.mem_filter.mpr ⟨hx, hpx⟩
              rw [hempty] at this
              exact absurd this (List.not_mem_nil x)
            have hyid : y.id = rF.id := by
              by_contra hyid
              rw [if_neg hyid] at hpy
              have : y ∈ tbl1.filter (fun r =>
                  r.location_id == into_id && r.source_id == s) :=
                List.mem_filter.mpr ⟨hy, hpy⟩
              rw [hempty] at this
              exact absurd this (List.not_mem_nil y)
            exact hRxy (hxid.trans hyid.symm)
        rw [hsingle, List.map_cons, List.map_nil, if_pos rfl]
      · exact (minSeen_none_right rF.first_seen_at).symm
      · exact (maxSeen_none_right rF.last_seen_at).symm

/-- C2: after `merge_locations(A, B)` on distinct existing locations:
A's status is `merged`; every candidate that pointed at A points at B;
for every source that had a LocationSource row on A, B has exactly one
row for that source whose first/last-seen window is the conservative
union (minimum non-null first-seen, maximum non-null last-seen) of the
two old windows; and if the names differ, a LocationAlias carrying A's
name exists on B.  The uniqueness hypotheses are the schema invariants:
distinct primary keys and the unique (location, source) constraint. -/
theorem merge_locations_correct
    (db : Demoter.MergeDB) (from_id into_id : String) (now : Nat)
    (A B : LocationRow) (res : Demoter.MergeDB)
    (hne : from_id ≠ into_id)
    (hA : db.locations.find? (fun l => l.rink_id == from_id) = some A)
    (hB : db.locations.find? (fun l => l.rink_id == into_id) = some B)
    (hids : db.location_sources.Pairwise (fun a b => a.id ≠ b.id))
    (hpairs : db.location_sources.Pairwise (fun a b =>
      ¬(a.location_id = b.location_id ∧ a.source_id = b.source_id)))
    (hrun : Demoter.merge_locations from_id into_id now db = Except.ok res) :
    (∀ l ∈ res.locations, l.rink_id = from_id → l.rink_status = "merged") ∧
    (∀ c ∈ db.candidates, c.location_id = some from_id →
      { c with location_id := some into_id } ∈ res.candidates) ∧
    (∀ (s : Nat) (rF : Demoter.LocSourceRow),
      db.location_sources.find? (fun r =>
        r.location_id == from_id && r.source_id == s) = some rF →
      ∃ r', res.location_sources.filter (fun r =>
          r.location_id == into_id && r.source_id == s) = [r'] ∧
        r'.first_seen_at = Demoter.minSeen rF.first_seen_at
          ((db.location_sources.find? (fun r =>
            r.location_id == into_id && r.source_id == s)).bind
            (fun r => r.first_seen_at)) ∧
        r'.last_seen_at = Demoter.maxSeen rF.last_seen_at
          ((db.location_sources.find? (fun r =>
            r.location_id == into_id && r.source_id == s)).bind
            (fun r => r.last_seen_at))) ∧
    (A.rink_name ≠ B.rink_name →
      ∃ al ∈ res.aliases, al.location_id = into_id ∧
        al.alias_name = A.rink_name) := by
  simp only [Demoter.merge_locations, if_neg hne, hA, hB] at hrun
  rw [Except.ok.injEq] at hrun
  subst hrun
  refine ⟨?_, ?_, ?_, ?_⟩
  · intro l hl hlid
    obtain ⟨l0, hl0, hfl0⟩ := List.mem_map.mp hl
    by_cases hc : l0.rink_id = from_id
    · rw [if_pos hc] at hfl0
      rw [← hfl0]
    · rw [if_neg hc] at hfl0
      rw [← hfl0] at hlid
      exact absurd hlid hc
  · intro c hc hcl
    have hmap := List.mem_map_of_mem (fun c : Candidate =>
      if c.location_id = some from_id then
        { c with location_id := some into_id } else c) hc
    simpa [hcl] using hmap
  · intro s rF hrF
    exact merge_fold_filter_into db.location_sources from_id into_id hne
      hids hpairs s rF hrF
  · intro hname
    refine ⟨⟨into_id, A.rink_name, some now, "Merged from " ++ from_id⟩,
      ?_, rfl, rfl⟩
    show _ ∈ (if A.rink_name ≠ B.rink_name then
      db.aliases ++
        [(⟨into_id, A.rink_name, some now, "Merged from " ++ from_id⟩ :
          Demoter.AliasRow)]
      else db.aliases)
    rw [if_pos hname]
    exact List.mem_append_right _ (List.mem_singleton.mpr rfl)

/-- Witness for the C2 theorem at a concrete two-location database:
source location `a` with one source link and one candidate is merged
into `b`, which already has a link for the same source. -/
theorem merge_locations_correct_witness :
    ((∀ l ∈ (Demoter.MergeDB.mk
        [⟨"a", "Alpha Rink", some "1 A ST", "X", "IL", "US", "11111", "merged", "t"⟩,
         ⟨"b", "Beta Rink", some "2 B ST", "Y", "IL", "US", "22222", "active", "t"⟩]
        [⟨2, "b", 10, none, some 3, some 20, true⟩]
        [⟨1, 1, "C", none, none, none, none, none, none, none, none, none,
          "geocode_match", some "b"⟩]
        [⟨"b", "Alpha Rink", some 99, "Merged from a"⟩]).locations,
        l.rink_id = "a" → l.rink_status = "merged") ∧
      (∀ c ∈ [(⟨1, 1, "C", none, none, none, none, none, none, none, none,
          none, "geocode_match", some "a"⟩ : Candidate)],
        c.location_id = some "a" →
        { c with location_id := some "b" } ∈ (Demoter.MergeDB.mk
          [⟨"a", "Alpha Rink", some "1 A ST", "X", "IL", "US", "11111", "merged", "t"⟩,
           ⟨"b", "Beta Rink", some "2 B ST", "Y", "IL", "US", "22222", "active", "t"⟩]
          [⟨2, "b", 10, none, some 3, some 20, true⟩]
          [⟨1, 1, "C", none, none, none, none, none, none, none, none, none,
            "geocode_match", some "b"⟩]
          [⟨"b", "Alpha Rink", some 99, "Merged from a"⟩]).candidates) ∧
      (∀ (s : Nat) (rF : Demoter.LocSourceRow),
        ([⟨1, "a", 10, none, some 5, some 20, true⟩,
          ⟨2, "b", 10, none, some 3, some 7, true⟩] :
            List Demoter.LocSourceRow).find? (fun r =>
          r.location_id == "a" && r.source_id == s) = some rF →
        ∃ r', ((Demoter.MergeDB.mk
            [⟨"a", "Alpha Rink", some "1 A ST", "X", "IL", "US", "11111", "merged", "t"⟩,
             ⟨"b", "Beta Rink", some "2 B ST", "Y", "IL", "US", "22222", "active", "t"⟩]
            [⟨2, "b", 10, none, some 3, some 20, true⟩]
            [⟨1, 1, "C", none, none, none, none, none, none, none, none, none,
              "geocode_match", some "b"⟩]
            [⟨"b", "Alpha Rink", some 99, "Merged from a"⟩]).location_sources).filter
            (fun r => r.location_id == "b" && r.source_id == s) = [r'] ∧
          r'.first_seen_at = Demoter.minSeen rF.first_seen_at
            ((([⟨1, "a", 10, none, some 5, some 20, true⟩,
                ⟨2, "b", 10, none, some 3, some 7, true⟩] :
                  List Demoter.LocSourceRow).find? (fun r =>
              r.location_id == "b" && r.source_id == s)).bind
              (fun r => r.first_seen_at)) ∧
          r'.last_seen_at = Demoter.maxSeen rF.last_seen_at
            ((([⟨1, "a", 10, none, some 5, some 20, true⟩,
                ⟨2, "b", 10, none, some 3, some 7, true⟩] :
                  List Demoter.LocSourceRow).find? (fun r =>
              r.location_id == "b" && r.source_id == s)).bind
              (fun r => r.last_seen_at))) ∧
      (("Alpha Rink" : String) ≠ "Beta Rink" →
        ∃ al ∈ (Demoter.MergeDB.mk
          [⟨"a", "Alpha Rink", some "1 A ST", "X", "IL", "US", "11111", "merged", "t"⟩,
           ⟨"b", "Beta Rink", some "2 B ST", "Y", "IL", "US", "22222", "active", "t"⟩]
          [⟨2, "b", 10, none, some 3, some 20, true⟩]
          [⟨1, 1, "C", none, none, none, none, none, none, none, none, none,
            "geocode_match", some "b"⟩]
          [⟨"b", "Alpha Rink", some 99, "Merged from a"⟩]).aliases,
          al.location_id = "b" ∧ al.alias_name = "Alpha Rink")) :=
  merge_locations_correct
    (Demoter.MergeDB.mk
      [⟨"a", "Alpha Rink", some "1 A ST", "X", "IL", "US", "11111", "active", "t"⟩,
       ⟨"b", "Beta Rink", some "2 B ST", "Y", "IL", "US", "22222", "active", "t"⟩]
      [⟨1, "a", 10, none, some 5, some 20, true⟩,
       ⟨2, "b", 10, none, some 3, some 7, true⟩]
      [⟨1, 1, "C", none, none, none, none, none, none, none, none, none,
        "geocode_match", some "a"⟩]
      [])
    "a" "b" 99
    ⟨"a", "Alpha Rink", some "1 A ST", "X", "IL", "US", "11111", "active", "t"⟩
    ⟨"b", "Beta Rink", some "2 B ST", "Y", "IL", "US", "22222", "active", "t"⟩
    (Demoter.MergeDB.mk
      [⟨"a", "Alpha Rink", some "1 A ST", "X", "IL", "US", "11111", "merged", "t"⟩,
       ⟨"b", "Beta Rink", some "2 B ST", "Y", "IL", "US", "22222", "active", "t"⟩]
      [⟨2, "b", 10, none, some 3, some 20, true⟩]
      [⟨1, 1, "C", none, none, none, none, none, none, none, none, none,
        "geocode_match", some "b"⟩]
      [⟨"b", "Alpha Rink", some 99, "Merged from a"⟩])
    (by decide) (by decide) (by decide) (by decide) (by decide) rfl

/-- C7 counterexample: a candidate with status `geocode_mismatch` is
left completely unchanged by the repair operation — the query filters
on `geocode_failed` only — so repair does not reset `geocode_mismatch`
candidates to `unverified`. -/
theorem repair_mismatch_counterexample :
    Runner.repair_geocode_failed (fun s => some s)
      (fun _ => Except.error "tagger unavailable") []
      [⟨2, 7, "Rink2", some "OLD STREET", some "Springfield", some "IL",
        some "62701", none, some 1, some 2, some 3, some "m",
        "geocode_mismatch", none⟩] =
      [⟨2, 7, "Rink2", some "OLD STREET", some "Springfield", some "IL",
        some "62701", none, some 1, some 2, some 3, some "m",
        "geocode_mismatch", none⟩] ∧
    ("geocode_mismatch" : String) ≠ "unverified" := by
  refine ⟨by decide, by decide⟩

/-- C7 amended: repair touches only `geocode_failed` candidates, and
resets the candidate at a position to `unverified` (replacing
street/city/state and clearing the geo fields and zip) exactly when its
raw entry exists and re-parses to a non-empty street different from the
current one; in every other case — wrong status (so every
`geocode_mismatch` candidate), missing raw entry, failed re-parse, and
missing, empty or unchanged re-parsed street — the candidate at that
position is unchanged. -/
theorem repair_geocode_failed_resets (fix : String → Option String)
    (tag : String → Except String Runner.TagParts)
    (raws : List Runner.RawEntry) (cands : List Candidate)
    (i : Nat) (c : Candidate) (hc : cands[i]? = some c) :
    (c.verification_status ≠ "geocode_failed" →
      (Runner.repair_geocode_failed fix tag raws cands)[i]? = some c) ∧
    (∀ raw p ns,
      c.verification_status = "geocode_failed" →
      raws.find? (fun r => r.id == c.raw_entry_id) = some raw →
      Runner._parse_entry fix tag raw = Except.ok p →
      p.street = some ns → ns ≠ "" → some ns ≠ c.street →
      (Runner.repair_geocode_failed fix tag raws cands)[i]? = some
      { c with
        street := some ns
        city := some p.city
        state := some p.state
        verification_status := "unverified"
        geo_lat := none
        geo_lon := none
        geo_confidence := none
        geo_matched_name := none
        zip := none }) ∧
    (c.verification_status = "geocode_failed" →
      raws.find? (fun r => r.id == c.raw_entry_id) = none →
      (Runner.repair_geocode_failed fix tag raws cands)[i]? = some c) ∧
    (∀ raw e,
      c.verification_status = "geocode_failed" →
      raws.find? (fun r => r.id == c.raw_entry_id) = some raw →
      Runner._parse_entry fix tag raw = Except.error e →
      (Runner.repair_geocode_failed fix tag raws cands)[i]? = some c) ∧
    (∀ raw p,
      c.verification_status = "geocode_failed" →
      raws.find? (fun r => r.id == c.raw_entry_id) = some raw →
      Runner._parse_entry fix tag raw = Except.ok p →
      p.street = none →
      (Runner.repair_geocode_failed fix tag raws cands)[i]? = some c) ∧
    (∀ raw p ns,
      c.verification_status = "geocode_failed" →
      raws.find? (fun r => r.id == c.raw_entry_id) = some raw →
      Runner._parse_entry fix tag raw = Except.ok p →
      p.street = some ns → (ns = "" ∨ some ns = c.street) →
      (Runner.repair_geocode_failed fix tag raws cands)[i]? = some c) := by
  have hmap : ∀ c1 : Candidate, Runner.repair_one fix tag raws c = c1 →
      (Runner.repair_geocode_failed fix tag raws cands)[i]? = some c1 := by
    intro c1 h
    rw [Runner.repair_geocode_failed, List.getElem?_map, hc,
      Option.map_some', h]
  refine ⟨?_, ?_, ?_, ?_, ?_, ?_⟩
  · intro hne
    refine hmap c ?_
    unfold Runner.repair_one
    rw [if_neg hne]
  · intro raw p ns h1 h2 h3 h4 h5 h6
    refine hmap _ ?_
    simp only [Runner.repair_one, h1, h2, h3, h4, if_pos, if_true]
    rw [if_pos ⟨h5, h6⟩]
  · intro h1 h2
    refine hmap c ?_
    simp only [Runner.repair_one, h1, h2, if_pos, if_true]
  · intro raw e h1 h2 h3
    refine hmap c ?_
    simp only [Runner.repair_one, h1, h2, h3, if_pos, if_true]
  · intro raw p h1 h2 h3 h4
    refine hmap c ?_
    simp only [Runner.repair_one, h1, h2, h3, h4, if_pos, if_true]
  · intro raw p ns h1 h2 h3 h4 h5
    refine hmap c ?_
    simp only [Runner.repair_one, h1, h2, h3, h4, if_pos, if_true]
    have hno : ¬(ns ≠ "" ∧ some ns ≠ c.street) := by
      rintro ⟨ha, hb⟩
      rcases h5 with h5 | h5
      · exact ha h5
      · exact hb h5
    rw [if_neg hno]

/-- Witness for the amended C7 theorem: a concrete `geocode_failed`
candidate whose re-parse yields a new street is reset, and one whose
re-parsed street equals the stored street is unchanged. -/
theorem repair_geocode_failed_resets_witness :
    (Runner.repair_geocode_failed (fun s => some s)
      (fun _ => Except.ok ⟨"100", "", "Main", "St", "", "",
        "Springfield", "Illinois"⟩)
      [⟨5, 1, "Rink", "100 Main St, Springfield, Illinois"⟩]
      [⟨1, 5, "Rink", some "OLD STREET", some "Oldtown", some "OH",
        some "99999", none, some 1, some 2, some 3, some "m",
        "geocode_failed", none⟩])[0]? = some
      ⟨1, 5, "Rink", some "100 MAIN STREET", some "Springfield", some "IL",
        none, none, none, none, none, none, "unverified", none⟩ ∧
    (Runner.repair_geocode_failed (fun s => some s)
      (fun _ => Except.ok ⟨"100", "", "Main", "St", "", "",
        "Springfield", "Illinois"⟩)
      [⟨5, 1, "Rink", "100 Main St, Springfield, Illinois"⟩]
      [⟨2, 5, "Rink", some "100 MAIN STREET", some "Springfield", some "IL",
        some "62701", none, some 1, some 2, some 3, some "m",
        "geocode_failed", none⟩])[0]? = some
      ⟨2, 5, "Rink", some "100 MAIN STREET", some "Springfield", some "IL",
        some "62701", none, some 1, some 2, some 3, some "m",
        "geocode_failed", none⟩ :=
  ⟨(repair_geocode_failed_resets (fun s => some s)
    (fun _ => Except.ok ⟨"100", "", "Main", "St", "", "",
      "Springfield", "Illinois"⟩)
    [⟨5, 1, "Rink", "100 Main St, Springfield, Illinois"⟩]
    [⟨1, 5, "Rink", some "OLD STREET", some "Oldtown", some "OH",
      some "99999", none, some 1, some 2, some 3, some "m",
      "geocode_failed", none⟩] 0
    ⟨1, 5, "Rink", some "OLD STREET", some "Oldtown", some "OH",
      some "99999", none, some 1, some 2, some 3, some "m",
      "geocode_failed", none⟩ rfl).2.1
    ⟨5, 1, "Rink", "100 Main St, Springfield, Illinois"⟩
    ⟨"Rink", some "100 MAIN STREET", "Springfield", "IL"⟩
    "100 MAIN STREET" (by decide) (by decide) rfl (by decide)
    (by decide) (by decide),
   (repair_geocode_failed_resets (fun s => some s)
    (fun _ => Except.ok ⟨"100", "", "Main", "St", "", "",
      "Springfield", "Illinois"⟩)
    [⟨5, 1, "Rink", "100 Main St, Springfield, Illinois"⟩]
    [⟨2, 5, "Rink", some "100 MAIN STREET", some "Springfield", some "IL",
      some "62701", none, some 1, some 2, some 3, some "m",
      "geocode_failed", none⟩] 0
    ⟨2, 5, "Rink", some "100 MAIN STREET", some "Springfield", some "IL",
      some "62701", none, some 1, some 2, some 3, some "m",
      "geocode_failed", none⟩ rfl).2.2.2.2.2
    ⟨5, 1, "Rink", "100 Main St, Springfield, Illinois"⟩
    ⟨"Rink", some "100 MAIN STREET", "Springfield", "IL"⟩
    "100 MAIN STREET" (by decide) (by decide) rfl (by decide)
    (Or.inr (by decide))⟩

/-- Every value of the state abbreviation table is a 2-character
uppercase code, fixed by strip and upper. -/
theorem state_table_codes :
    (Utils.us_state_to_abbrev.all (fun kv =>
      kv.2.length == 2 && kv.2.data.all isAsciiUpper &&
        pyUpper (pyStrip kv.2) == kv.2 && pyUpper kv.2 == kv.2)) = true := by
  decide

/-- A successful lookup in the state table returns a 2-character
uppercase code that strip and upper leave unchanged. -/
theorem state_table_value_shape (k v : String)
    (h : Utils.tableGet Utils.us_state_to_abbrev k = some v) :
    v.length = 2 ∧ v.data.all isAsciiUpper = true ∧
      pyUpper (pyStrip v) = v ∧ pyUpper v = v := by
  unfold Utils.tableGet at h
  cases hf : Utils.us_state_to_abbrev.find? (fun kv => kv.1 == k) with
  | none => rw [hf] at h; exact Option.noConfusion h
  | some kv =>
      rw [hf] at h
      have hv : kv.2 = v := by simpa using h
      have hkv := List.mem_of_find?_eq_some hf
      have hall := List.all_eq_true.mp state_table_codes kv hkv
      simp only [Bool.and_eq_true, beq_iff_eq] at hall
      subst hv
      exact ⟨hall.1.1.1, hall.1.1.2, hall.1.2, hall.2⟩

/-- C8 counterexample: a successfully parsed wiki entry whose state is
not in the abbreviation table keeps it as-is, merely uppercased —
`Ontario` becomes `ONTARIO`, which is neither empty nor 2 letters — so
the output state is not always empty-or-two-uppercase-letters. -/
theorem parse_wiki_state_counterexample :
    Runner._parse_wiki_entry (fun s => some s)
      ⟨1, 1, "Test Rink", "Toronto, Ontario"⟩
      ⟨some "Toronto", some "Ontario"⟩ =
      Except.ok ⟨"Test Rink", none, "Toronto", "ONTARIO"⟩ ∧
    ("ONTARIO" : String).length ≠ 2 ∧ ("ONTARIO" : String) ≠ "" := by
  refine ⟨rfl, by decide, by decide⟩

/-- C8 amended: the output state of a successful parse is exactly 2
uppercase letters whenever the input state is recognized by the state
table (and empty when the tagged state is empty); an unrecognized
non-empty state is kept as-is, only uppercased, and may have any
length.  Both the standard and the wiki variant are covered. -/
theorem parse_state_shape (fix : String → Option String)
    (tag : String → Except String Runner.TagParts) (raw : Runner.RawEntry)
    (extra : Runner.WikiExtra) (parts : Runner.TagParts)
    (p q : Runner.ParsedEntry) :
    (Runner._parse_entry fix tag raw = Except.ok p →
      tag raw.raw_address = Except.ok parts →
      ((Utils.tableGet Utils.us_state_to_abbrev parts.stateName).isSome →
        p.state.length = 2 ∧ p.state.data.all isAsciiUpper = true) ∧
      (parts.stateName = "" → p.state = "")) ∧
    (Runner._parse_wiki_entry fix raw extra = Except.ok q →
      (Utils.tableGet Utils.us_state_to_abbrev
        (pyStrip (extra.state.getD ""))).isSome →
      q.state.length = 2 ∧ q.state.data.all isAsciiUpper = true) := by
  constructor
  · intro hok htag
    simp only [Runner._parse_entry, htag] at hok
    split at hok
    · exact Except.noConfusion hok
    · rename_i st hst
      split at hok
      · exact Except.noConfusion hok
      · cases hok
        constructor
        · intro hsome
          obtain ⟨v, hv⟩ := Option.isSome_iff_exists.mp hsome
          have hs0 : parts.stateName ≠ "" := by
            intro h0
            rw [h0] at hv
            rw [show Utils.tableGet Utils.us_state_to_abbrev "" = none
              from by decide] at hv
            exact Option.noConfusion hv
          obtain ⟨hlen, hupper, hfix, _⟩ := state_table_value_shape _ _ hv
          have hd : Utils.tableGetD Utils.us_state_to_abbrev parts.stateName
              parts.stateName = v := by
            unfold Utils.tableGetD
            rw [hv]
            rfl
          have hv0 : v ≠ "" := by
            intro h0
            rw [h0] at hlen
            exact absurd hlen (by decide)
          simp only [if_pos hs0, hd, if_pos hv0, hfix]
          exact ⟨hlen, hupper⟩
        · intro h0
          simp [h0]
  · intro hok hsome
    simp only [Runner._parse_wiki_entry] at hok
    split at hok
    · exact Except.noConfusion hok
    · split at hok
      · exact Except.noConfusion hok
      · cases hok
        obtain ⟨v, hv⟩ := Option.isSome_iff_exists.mp hsome
        obtain ⟨hlen, hupper, _, hupfix⟩ := state_table_value_shape _ _ hv
        have hd : Utils.tableGetD Utils.us_state_to_abbrev
            (pyStrip (extra.city.getD "")) (pyStrip (extra.city.getD "")) =
            Utils.tableGetD Utils.us_state_to_abbrev
            (pyStrip (extra.city.getD "")) (pyStrip (extra.city.getD "")) := rfl
        have hd2 : Utils.tableGetD Utils.us_state_to_abbrev
            (pyStrip (extra.state.getD "")) (pyStrip (extra.state.getD "")) = v := by
          unfold Utils.tableGetD
          rw [hv]
          rfl
        simp only [hd2, hupfix]
        exact ⟨hlen, hupper⟩

/-- Witness for the amended C8 theorem: recognized states come out as
2-letter uppercase codes through both parse variants. -/
theorem parse_state_shape_witness :
    (("IL" : String).length = 2 ∧ ("IL" : String).data.all isAsciiUpper = true) ∧
    (("MN" : String).length = 2 ∧ ("MN" : String).data.all isAsciiUpper = true) :=
  ⟨((parse_state_shape (fun s => some s)
      (fun _ => Except.ok ⟨"100", "", "Main", "St", "", "",
        "Springfield", "Illinois"⟩)
      ⟨1, 1, "Rink", "100 Main St, Springfield, Illinois"⟩
      ⟨none, none⟩
      ⟨"100", "", "Main", "St", "", "", "Springfield", "Illinois"⟩
      ⟨"Rink", some "100 MAIN STREET", "Springfield", "IL"⟩
      ⟨"", none, "", ""⟩).1 rfl rfl).1 (by decide),
   (parse_state_shape (fun s => some s)
      (fun _ => Except.ok ⟨"100", "", "Main", "St", "", "",
        "Springfield", "Illinois"⟩)
      ⟨1, 1, "Rink", "100 Main St, Springfield, Illinois"⟩
      ⟨some "Duluth", some "Minnesota"⟩
      ⟨"100", "", "Main", "St", "", "", "Springfield", "Illinois"⟩
      ⟨"Rink", some "100 MAIN STREET", "Springfield", "IL"⟩
      ⟨"Rink", none, "Duluth", "MN"⟩).2 rfl (by decide)⟩

/-- C3 counterexample: a location whose status is `seasonal` (not
`active`) IS returned by the promoter's location matching — the filter
excludes only `merged` and `disabled` — so non-active locations are not
invisible to promoter matching. -/
theorem find_matching_location_seasonal_counterexample :
    Promoter._find_matching_location (fun _ _ => 0)
      [⟨"loc-1", "Springfield Ice", some "100 MAIN STREET", "Springfield",
        "IL", "US", "62701", "seasonal", "test"⟩]
      (some "Other Name") (some "100 MAIN STREET") (some "Springfield")
      (some "IL") =
      some ⟨"loc-1", "Springfield Ice", some "100 MAIN STREET", "Springfield",
        "IL", "US", "62701", "seasonal", "test"⟩ ∧
    ("seasonal" : String) ≠ "active" := by
  refine ⟨by decide, by decide⟩

/-- C3 amended: the promoter's location matching (used by Phase 1 and
Phase 3) never returns a location whose status is `merged` or
`disabled`, and every other status remains visible: for ANY status
string outside those two — so in particular `seasonal` and
`closed_permanently` — a location carrying it is returned on an exact
normalized address match. -/
theorem find_matching_location_status :
    (∀ (ratio : String → String → Rat) (locs : List LocationRow)
        (name street city state : Option String) (l : LocationRow),
      Promoter._find_matching_location ratio locs name street city state =
        some l →
      l ∈ locs ∧ l.rink_status ≠ "merged" ∧ l.rink_status ≠ "disabled") ∧
    (∀ s : String, s ≠ "merged" → s ≠ "disabled" →
      Promoter._find_matching_location (fun _ _ => 0)
        [⟨"loc-1", "Springfield Ice", some "100 MAIN STREET", "Springfield",
          "IL", "US", "62701", s, "test"⟩]
        (some "Other Name") (some "100 MAIN STREET") (some "Springfield")
        (some "IL") =
      some ⟨"loc-1", "Springfield Ice", some "100 MAIN STREET", "Springfield",
        "IL", "US", "62701", s, "test"⟩) := by
  constructor
  · intro ratio locs name street city state l h
    have hmem : ∀ l' : LocationRow,
        l' ∈ locs.filter (fun l' =>
          !(["merged", "disabled"].contains l'.rink_status)) →
        l' ∈ locs ∧ l'.rink_status ≠ "merged" ∧
          l'.rink_status ≠ "disabled" := by
      intro l' hl'
      refine ⟨List.mem_of_mem_filter hl', ?_⟩
      have hf := List.of_mem_filter hl'
      simp only [Bool.not_eq_true'] at hf
      have : l'.rink_status ∉ ["merged", "disabled"] := by simpa using hf
      simpa using this
    simp only [Promoter._find_matching_location] at h
    split at h
    · rename_i l1 heq
      cases h
      exact hmem _ (List.mem_of_find?_eq_some heq)
    · exact hmem _ (List.mem_of_find?_eq_some h)
  · intro s hs1 hs2
    have h1 : (s == "merged") = false := beq_eq_false_iff_ne.mpr hs1
    have h2 : (s == "disabled") = false := beq_eq_false_iff_ne.mpr hs2
    have hfil : List.filter (fun l : LocationRow =>
        !(["merged", "disabled"].contains l.rink_status))
        [⟨"loc-1", "Springfield Ice", some "100 MAIN STREET", "Springfield",
          "IL", "US", "62701", s, "test"⟩] =
        [⟨"loc-1", "Springfield Ice", some "100 MAIN STREET", "Springfield",
          "IL", "US", "62701", s, "test"⟩] := by
      simp only [List.filter_cons, List.filter_nil, List.contains_cons,
        List.elem_nil, h1, h2, Bool.or_false, Bool.or_self, Bool.not_false,
        if_true]
    simp only [Promoter._find_matching_location, hfil]
    rw [List.find?_cons_of_pos _ rfl]

/-- Witness for the amended C3 theorem: soundness at a concrete active
match, visibility at a concrete `closed_permanently` location. -/
theorem find_matching_location_status_witness :
    ((⟨"loc-2", "Springfield Ice", some "100 MAIN STREET", "Springfield",
      "IL", "US", "62701", "active", "test"⟩ : LocationRow) ∈
      [(⟨"loc-2", "Springfield Ice", some "100 MAIN STREET", "Springfield",
        "IL", "US", "62701", "active", "test"⟩ : LocationRow)] ∧
      ("active" : String) ≠ "merged" ∧ ("active" : String) ≠ "disabled") ∧
    Promoter._find_matching_location (fun _ _ => 0)
      [⟨"loc-1", "Springfield Ice", some "100 MAIN STREET", "Springfield",
        "IL", "US", "62701", "closed_permanently", "test"⟩]
      (some "Other Name") (some "100 MAIN STREET") (some "Springfield")
      (some "IL") =
      some ⟨"loc-1", "Springfield Ice", some "100 MAIN STREET", "Springfield",
        "IL", "US", "62701", "closed_permanently", "test"⟩ :=
  ⟨find_matching_location_status.1 (fun _ _ => 0)
    [⟨"loc-2", "Springfield Ice", some "100 MAIN STREET", "Springfield",
      "IL", "US", "62701", "active", "test"⟩]
    (some "Springfield Ice") (some "100 MAIN STREET") (some "Springfield")
    (some "IL")
    ⟨"loc-2", "Springfield Ice", some "100 MAIN STREET", "Springfield",
      "IL", "US", "62701", "active", "test"⟩
    (by decide),
   find_matching_location_status.2 "closed_permanently" (by decide)
    (by decide)⟩

/-- Witness for the amended C5 theorem: a concrete layer-1 match by a
candidate with a street lands in the verified pool. -/
theorem find_duplicate_verified_pool_witness :
    ("geocode_match" : String) ∈ Matcher.verifiedStatuses :=
  find_duplicate_verified_pool_when_street (fun _ _ => 1) (fun _ _ _ _ => 0)
    [⟨1, 1, "Polar Ice Raleigh", some "100 MAIN STREET", some "Raleigh",
      some "NC", none, none, none, none, none, none, "geocode_match", none⟩]
    ⟨2, 2, "Polar Iceplex", some "100 MAIN STREET", some "Raleigh", some "NC",
      none, none, none, none, none, none, "unverified", none⟩
    ⟨1, 1, "Polar Ice Raleigh", some "100 MAIN STREET", some "Raleigh",
      some "NC", none, none, none, none, none, none, "geocode_match", none⟩
    "address_exact" (by decide) (by decide)

end IceMaker
